import Mathlib

/-!
Verification of the pocket-drs per-clip analysis pipeline.

This file gives a shallow embedding, in Lean 4, of the pure computational
core of the repository's Python pipeline:

* `server/app/pipeline/events.py`    — bounce / impact event estimators
* `server/app/pipeline/lbw.py`       — the LBW decision engine `assess_lbw`
* `server/app/pipeline/process_job.py` — `_track_points`, `_compute_taps_homography`,
  `_assess_lbw_2d`, `map_exception_to_api_error` and the import of
  `MotionBallDetector` from the tracking module
* `server/app/pipeline/tracking.py`  — `Kalman2D`, `track_seeded`, `track_auto`
* `server/app/pipeline/calibration.py` — `compute_homography`, `apply_homography`

Modelling conventions:

* Python floats are modelled by `ℚ` (exact real arithmetic).  `np.isfinite`
  is identically true on `ℚ`; NaN-propagation paths of IEEE arithmetic are
  out of scope and noted where they matter.
* numpy arrays/matrices are modelled as `List (List ℚ)` with row-major
  entries, and `@` as textbook matrix multiplication.
* Fallible Python code (raise / except) is modelled with `Except String`.
  The message strings follow the source.
* External collaborators (cv2 frame decoding, `cv2.findHomography`, the
  blob/colour extraction inside a frame) are modelled as oracle function
  parameters: the repository treats them as external, and every theorem
  quantifies over the oracle (or instantiates it concretely).
-/

namespace PocketDRS

/-- Python's `range(a, b)` as a list (empty when `b ≤ a`). -/
def pyRange (a b : Nat) : List Nat := List.range' a (b - a)

instance {ε α : Type} [DecidableEq ε] [DecidableEq α] : DecidableEq (Except ε α)
  | .error a, .error b =>
    if h : a = b then .isTrue (by rw [h]) else .isFalse (by simp [h])
  | .error _, .ok _ => .isFalse (by simp)
  | .ok _, .error _ => .isFalse (by simp)
  | .ok a, .ok b =>
    if h : a = b then .isTrue (by rw [h]) else .isFalse (by simp [h])

/-! ## events.py -/

/-- `EventEstimate` dataclass from `events.py`. -/
structure EventEstimate where
  index : Nat
  confidence : ℚ
  deriving DecidableEq, Repr

/-- `estimate_bounce_index` from `events.py`.

For `n < 5` returns `(max 0 (n-1), 0.1)` (in `ℕ`, `n - 1` truncates at 0,
matching Python's `max(0, n - 1)`).  Otherwise builds the first-difference
list `dy` (length `n - 1`) and scans `i ∈ range(2, len(dy) - 1)` — note the
upper bound excludes the final difference — for `dy[i-1] > 0 ∧ dy[i] < 0`,
returning `(i, 0.6)` on the first hit and `(max 1 (n // 3), 0.2)` otherwise. -/
def estimate_bounce_index (y_px : List ℚ) : EventEstimate :=
  let n := y_px.length
  if n < 5 then ⟨n - 1, 1/10⟩
  else
    let dy := (List.range (n - 1)).map (fun i => y_px.getD (i + 1) 0 - y_px.getD i 0)
    match (pyRange 2 (dy.length - 1)).find?
        (fun i => decide (0 < dy.getD (i - 1) 0) && decide (dy.getD i 0 < 0)) with
    | some i => ⟨i, 3/5⟩
    | none => ⟨max 1 (n / 3), 1/5⟩

/-- `estimate_impact_index` from `events.py`.  The argument is the Python
`int` `n_points` (may be negative), hence `ℤ`. -/
def estimate_impact_index (n_points : ℤ) : EventEstimate :=
  if n_points ≤ 0 then ⟨0, 0⟩ else ⟨(n_points - 1).toNat, 1/2⟩

/-- Modelled from the spec's words for claim C7 (NOT from the source): the
bounce estimator scans the first differences from index 2 with no upper
exclusion, and falls back to `(⌊n/3⌋, 0.2)`.  Used only to exhibit the
divergence between the claim and `estimate_bounce_index`. -/
def claimed_bounce_index (y_px : List ℚ) : EventEstimate :=
  let n := y_px.length
  if n < 5 then ⟨n - 1, 1/10⟩
  else
    let dy := (List.range (n - 1)).map (fun i => y_px.getD (i + 1) 0 - y_px.getD i 0)
    match (pyRange 2 dy.length).find?
        (fun i => decide (0 < dy.getD (i - 1) 0) && decide (dy.getD i 0 < 0)) with
    | some i => ⟨i, 3/5⟩
    | none => ⟨n / 3, 1/5⟩

/-! ## lbw.py -/

def WICKET_WIDTH_M : ℚ := 2286/10000
def BALL_RADIUS_M : ℚ := 36/1000
def LINE_TOLERANCE_M : ℚ := BALL_RADIUS_M
def UMPIRES_CALL_ZONE_M : ℚ := BALL_RADIUS_M
def MIN_PREDICTION_POINTS : Nat := 5

/-- `LbwAssessment` dataclass from `lbw.py`. -/
structure LbwAssessment where
  pitched_in_line : Bool
  impact_in_line : Bool
  wickets_hitting : Bool
  y_at_stumps_m : ℚ
  decision_key : String
  reason : String
  prediction_confidence : ℚ
  prediction_r_squared : ℚ
  deriving DecidableEq, Repr

/-- `_in_line_y` from `lbw.py`. -/
def _in_line_y (y_m : ℚ) : Bool :=
  decide (|y_m| ≤ WICKET_WIDTH_M / 2 + LINE_TOLERANCE_M)

/-- Python's `f"{q:.1%}"` for a nonnegative rational: percent value with one
decimal digit.  Half-way cases round up here where CPython rounds the nearest
double to even; no theorem below depends on this string. -/
def formatPercent1 (q : ℚ) : String :=
  let t : ℤ := round (q * 1000)
  toString (t / 10) ++ "." ++ toString (t % 10) ++ "%"

/-- `_fit_y_over_x` from `lbw.py`: weighted linear regression
`y = a + b*x`, returning `(a, b, r_squared)` or `none`.  The
`np.isfinite` mask is identically true over `ℚ`; the NaN path taken by
numpy when the weights sum to zero is out of scope (division by a zero
sum is total on `ℚ` and yields the degenerate-denominator fallback). -/
def _fit_y_over_x (xs ys : List ℚ) (weights : Option (List ℚ)) :
    Option (ℚ × ℚ × ℚ) :=
  if xs.length < 2 then none
  else
    let w0 : List ℚ :=
      match weights with
      | some w => if w.length ≠ xs.length then List.replicate xs.length 1 else w
      | none => List.replicate xs.length 1
    let w := w0.map (· / w0.sum)
    let sum_w := w.sum
    let sum_wx := (List.zipWith (· * ·) w xs).sum
    let sum_wy := (List.zipWith (· * ·) w ys).sum
    let sum_wxx := (List.zipWith (fun wi xi => wi * xi * xi) w xs).sum
    let sum_wxy := (List.zipWith (fun wi (p : ℚ × ℚ) => wi * p.1 * p.2) w (xs.zip ys)).sum
    let denom := sum_w * sum_wxx - sum_wx * sum_wx
    if |denom| < 1/10^12 then none
    else
      let b := (sum_w * sum_wxy - sum_wx * sum_wy) / denom
      let a := (sum_wy - b * sum_wx) / sum_w
      let y_pred := xs.map (fun x => a + b * x)
      let ss_res := (List.zipWith (fun wi (p : ℚ × ℚ) => wi * (p.1 - p.2)^2) w (ys.zip y_pred)).sum
      let y_mean := sum_wy / sum_w
      let ss_tot := (List.zipWith (fun wi yi => wi * (yi - y_mean)^2) w ys).sum
      some (a, b, 1 - ss_res / (ss_tot + 1/10^12))

/-- The decision ladder at the end of `assess_lbw` (lines 160–175 of
`lbw.py`), factored out verbatim: given the two in-line flags, the
projected `y_at_stumps` and the prediction confidence, produce
`(decision_key, reason)`. -/
def lbwDecisionChain (pitched_in_line impact_in_line : Bool)
    (y_at_stumps prediction_confidence : ℚ) : String × String :=
  let y_abs := |y_at_stumps|
  let stumps_zone := WICKET_WIDTH_M / 2
  let umpires_call_outer := stumps_zone + UMPIRES_CALL_ZONE_M
  if !pitched_in_line then ("not_out", "Pitched outside leg stump")
  else if !impact_in_line then ("not_out", "Impact outside off stump")
  else if y_abs ≤ stumps_zone then
    ("out", "Hitting stumps (confidence: " ++ formatPercent1 prediction_confidence ++ ")")
  else if y_abs ≤ umpires_call_outer then ("umpires_call", "Clipping stumps - Umpire's call")
  else ("not_out", "Missing stumps")

/-- `assess_lbw` from `lbw.py`.  `pitch_index` is a Python `int` (`ℤ`).
The engine derives the impact index as the last point of the trajectory.
Raised `ValueError` / `IndexError` become `Except.error` with the source's
message. -/
def assess_lbw (pitch_plane_points : List (ℚ × ℚ)) (pitch_index : ℤ)
    (point_confidences : Option (List ℚ)) (prediction_tail_points : Nat) :
    Except String LbwAssessment :=
  if pitch_plane_points.isEmpty then .error "pitch_plane_points must not be empty"
  else if pitch_index < 0 ∨ (pitch_plane_points.length : ℤ) ≤ pitch_index then
    .error "pitch_index out of range"
  else
    let n := pitch_plane_points.length
    let k := pitch_index.toNat
    let impact_index := n - 1
    if impact_index ≤ k then .error "Not enough points after pitch for LBW assessment"
    else
      let pitch_y := (pitch_plane_points.getD k (0, 0)).2
      let impact_y := (pitch_plane_points.getD impact_index (0, 0)).2
      let tail_start := max (k + 1) (impact_index + 1 - prediction_tail_points)
      let tail := (pitch_plane_points.drop tail_start).take (impact_index + 1 - tail_start)
      let xs := tail.map Prod.fst
      let ys := tail.map Prod.snd
      let wconf : Option (List ℚ) × ℚ :=
        match point_confidences with
        | some cs =>
          if impact_index + 1 ≤ cs.length then
            let tail_confidences := (cs.drop tail_start).take (impact_index + 1 - tail_start)
            (some tail_confidences,
              if 0 < tail_confidences.length then
                tail_confidences.sum / (tail_confidences.length : ℚ)
              else 1)
          else (none, 1)
        | none => (none, 1)
      let avg_confidence := wconf.2
      let fit := _fit_y_over_x xs ys wconf.1
      let ypr : ℚ × ℚ × ℚ :=
        match fit with
        | none => (impact_y, 3/10, 0)
        | some (a, b, r2) =>
          if tail.length < MIN_PREDICTION_POINTS then (impact_y, 3/10, 0)
          else (a + b * 0, min (99/100) (avg_confidence * (1/2 + 1/2 * max 0 r2)), r2)
      let y_at_stumps := ypr.1
      let prediction_confidence := ypr.2.1
      let r_squared := ypr.2.2
      let pitched_in_line := _in_line_y pitch_y
      let impact_in_line := _in_line_y impact_y
      let wickets_hitting := _in_line_y y_at_stumps
      let dr := lbwDecisionChain pitched_in_line impact_in_line y_at_stumps prediction_confidence
      .ok { pitched_in_line := pitched_in_line
            impact_in_line := impact_in_line
            wickets_hitting := wickets_hitting
            y_at_stumps_m := y_at_stumps
            decision_key := dr.1
            reason := dr.2
            prediction_confidence := prediction_confidence
            prediction_r_squared := r_squared }

/-! ## calibration.py

`compute_homography` delegates the actual solve to the external
`cv2.findHomography` (RANSAC); we model that external call as an oracle
parameter `findH` returning `none` exactly when cv2 returns `H is None`.
The `cv2 is None` guard branch is not modelled (cv2 is assumed present
and importable, as in the deployed server). -/

/-- numpy-style row-major rational matrix. -/
abbrev Mat := List (List ℚ)

/-- 3×3 determinant from explicit entries. -/
def det3x3 (a b c d e f g h i : ℚ) : ℚ :=
  a * (e * i - f * h) - b * (d * i - f * g) + c * (d * h - e * g)

/-- Determinant of (the top-left 3×3 of) a matrix. -/
def det3 (H : Mat) : ℚ :=
  let g := fun i j => (H.getD i []).getD j 0
  det3x3 (g 0 0) (g 0 1) (g 0 2) (g 1 0) (g 1 1) (g 1 2) (g 2 0) (g 2 1) (g 2 2)

/-- `compute_homography` from `calibration.py`: validates the correspondence
counts, then returns whatever the external solver produced, unchecked. -/
def compute_homography (findH : List (ℚ × ℚ) → List (ℚ × ℚ) → Option Mat)
    (image_points world_points : List (ℚ × ℚ)) : Except String Mat :=
  if image_points.length ≠ world_points.length then .error "Point count mismatch"
  else if image_points.length < 4 then .error "Need at least 4 correspondences"
  else
    match findH image_points world_points with
    | none => .error "Homography computation failed"
    | some H => .ok H

/-- `apply_homography` from `calibration.py`.  The source returns
`(nan, nan)` when the homogeneous weight is below `1e-12`; over `ℚ` the
non-finite outcome is modelled as `none`. -/
def apply_homography (H : Mat) (x y : ℚ) : Option (ℚ × ℚ) :=
  let g := fun i j => (H.getD i []).getD j 0
  let q0 := g 0 0 * x + g 0 1 * y + g 0 2
  let q1 := g 1 0 * x + g 1 1 * y + g 1 2
  let q2 := g 2 0 * x + g 2 1 * y + g 2 2
  if |q2| < 1/10^12 then none
  else some (q0 / q2, q1 / q2)

/-! ## process_job.py — calibration orchestration -/

def _WICKET_WIDTH_M : ℚ := 2286/10000
def _BALL_RADIUS_M : ℚ := 36/1000

/-- The four pitch-corner world points built inside `_compute_taps_homography`. -/
def worldPoints (pitch_length_m pitch_width_m : ℚ) : List (ℚ × ℚ) :=
  let half_w := pitch_width_m / 2
  [(0, -half_w), (0, half_w), (pitch_length_m, half_w), (pitch_length_m, -half_w)]

/-- `_compute_taps_homography` from `process_job.py`.  Note the source wraps
neither `compute_homography` call in a `try`: a `CalibrationError` raised by
the refined 6-correspondence solve propagates to the caller. -/
def _compute_taps_homography (findH : List (ℚ × ℚ) → List (ℚ × ℚ) → Option Mat)
    (corners_px : List (ℚ × ℚ)) (pitch_length_m pitch_width_m : ℚ)
    (stump_bases_px : Option (List (ℚ × ℚ))) : Except String (Mat × List String) :=
  let world_points := worldPoints pitch_length_m pitch_width_m
  match compute_homography findH corners_px world_points with
  | .error e => .error e
  | .ok H0 =>
    match stump_bases_px with
    | some [p0, p1] =>
      let ord : (ℚ × ℚ) × (ℚ × ℚ) :=
        match apply_homography H0 p0.1 p0.2, apply_homography H0 p1.1 p1.2 with
        | some (x0, _), some (x1, _) => if x0 ≤ x1 then (p0, p1) else (p1, p0)
        | _, _ => (p0, p1)
      let world_points_refined := world_points ++ [(0, 0), (pitch_length_m, 0)]
      let image_points_refined := corners_px ++ [ord.1, ord.2]
      match compute_homography findH image_points_refined world_points_refined with
      | .error e => .error e
      | .ok H => .ok (H, ["Refined homography using both stump bases"])
    | _ => .ok (H0, [])

/-! ## process_job.py — 2D LBW assessor -/

/-- The result dict assembled by `_assess_lbw_2d` (flattened). -/
structure Lbw2dResult where
  likely_out : Bool
  pitching_in_line : Bool
  impact_in_line : Bool
  wickets_hitting : Bool
  y_at_stumps_m : ℚ
  confidence : ℚ
  r_squared : ℚ
  decision : String
  reason : String
  deriving DecidableEq, Repr

/-- `np.polyval`: Horner evaluation, coefficients highest power first. -/
def polyval (coeff : List ℚ) (x : ℚ) : ℚ :=
  coeff.foldl (fun acc c => acc * x + c) 0

/-- `np.polyfit(xs, ys, deg, w=ws)` for `deg ∈ {1, 2}`: minimises
`Σ (wᵢ·(p(xᵢ) - yᵢ))²`, modelled by the exact weighted normal equations
solved by Cramer's rule, coefficients highest power first.  A singular
normal system yields `none`, which the caller routes to the source's
`except` fallback (numpy's SVD least squares would instead return a
minimum-norm solution; no theorem below depends on that case). -/
def polyfitModel (xs ys ws : List ℚ) (deg : Nat) : Option (List ℚ) :=
  let w2 := ws.map (fun w => w * w)
  let s : Nat → ℚ := fun k => (List.zipWith (fun wi xi => wi * xi ^ k) w2 xs).sum
  let t : Nat → ℚ := fun k =>
    (List.zipWith (fun wi (p : ℚ × ℚ) => wi * p.2 * p.1 ^ k) w2 (xs.zip ys)).sum
  if deg = 1 then
    let d := s 2 * s 0 - s 1 * s 1
    if d = 0 then none
    else some [(t 1 * s 0 - t 0 * s 1) / d, (s 2 * t 0 - s 1 * t 1) / d]
  else if deg = 2 then
    let d := det3x3 (s 4) (s 3) (s 2) (s 3) (s 2) (s 1) (s 2) (s 1) (s 0)
    if d = 0 then none
    else
      some [det3x3 (t 2) (s 3) (s 2) (t 1) (s 2) (s 1) (t 0) (s 1) (s 0) / d,
            det3x3 (s 4) (t 2) (s 2) (s 3) (t 1) (s 1) (s 2) (t 0) (s 0) / d,
            det3x3 (s 4) (s 3) (t 2) (s 3) (s 2) (t 1) (s 2) (s 1) (t 0) / d]
  else none

/-- `_assess_lbw_2d` from `process_job.py`.  Returns `.ok none` for fewer
than 3 plane points, `.ok (some r)` with the assembled payload otherwise —
except that the tail slice `pitch_points_m[i]` for `i in range(i0, i1+1)`
raises `IndexError` when `i1 = n` (both clamped indices equal `n-1`), which
becomes `.error`.  Over `ℚ` the `np.isfinite` mask keeps every sample. -/
def _assess_lbw_2d (pitch_points_m : List (ℚ × ℚ)) (bounce_index impact_index : ℤ)
    (point_confidences : Option (List ℚ)) : Except String (Option Lbw2dResult) :=
  let n := pitch_points_m.length
  if n < 3 then .ok none
  else
    let bounce_i : ℤ := max 0 (min ((n : ℤ) - 1) bounce_index)
    let impact_i0 : ℤ := max 0 (min ((n : ℤ) - 1) impact_index)
    let impact_i : ℤ := if impact_i0 ≤ 0 then (n : ℤ) - 1 else impact_i0
    let b := bounce_i.toNat
    let im := impact_i.toNat
    let pitch_y := (pitch_points_m.getD b (0, 0)).2
    let imp_y := (pitch_points_m.getD im (0, 0)).2
    let i0 := min b im
    let i1 := max (i0 + 1) im
    if n ≤ i1 then .error "list index out of range"
    else
      let idxs := pyRange i0 (i1 + 1)
      let xs := idxs.map (fun i => (pitch_points_m.getD i (0, 0)).1)
      let ys := idxs.map (fun i => (pitch_points_m.getD i (0, 0)).2)
      let ws : List ℚ :=
        match point_confidences with
        | some cs =>
          if cs.length = n then idxs.map (fun i => max (1/1000) (cs.getD i 0))
          else List.replicate xs.length 1
        | none => List.replicate xs.length 1
      let yr : ℚ × ℚ :=
        if xs.length < 2 then (imp_y, 0)
        else
          let deg := if 3 ≤ xs.length then 2 else 1
          let yy : ℚ × List ℚ :=
            match polyfitModel xs ys ws deg with
            | some coeff => (polyval coeff 0, xs.map (polyval coeff))
            | none =>
              let x1 := xs.getD (xs.length - 2) 0
              let y1 := ys.getD (ys.length - 2) 0
              let x2 := xs.getD (xs.length - 1) 0
              let y2 := ys.getD (ys.length - 1) 0
              if |x2 - x1| < 1/10^9 then (imp_y, xs.map (fun _ => imp_y))
              else
                let m := (y2 - y1) / (x2 - x1)
                let bb := y2 - m * x2
                (bb, xs.map (fun x => m * x + bb))
          let ss_res := (List.zipWith (fun yi ypi => (yi - ypi)^2) ys yy.2).sum
          let mean_y := ys.sum / (ys.length : ℚ)
          let ss_tot := (ys.map (fun yi => (yi - mean_y)^2)).sum
          let r2 := if ss_tot > 1/10^12 then 1 - ss_res / ss_tot else 0
          (yy.1, max 0 (min 1 r2))
      let y_at_stumps := yr.1
      let r2 := yr.2
      let line_thresh := _WICKET_WIDTH_M / 2 + _BALL_RADIUS_M
      let leg_sign : ℚ := if |imp_y| < 1/10^6 then 1 else if 0 < imp_y then 1 else -1
      let pitched_in_line := !decide (pitch_y * leg_sign > line_thresh)
      let impact_in_line := decide (|imp_y| ≤ line_thresh)
      let dist_to_center := |y_at_stumps|
      let hitting := decide (dist_to_center ≤ line_thresh)
      let edge := line_thresh
      let margin : ℚ := 1/100
      let dr : String × String :=
        if !pitched_in_line then ("not_out", "Pitched outside leg stump")
        else if !impact_in_line then ("not_out", "Impact outside off stump line")
        else if hitting && decide (|dist_to_center - edge| ≤ margin) then
          ("umpires_call", "Projected clipping stumps (margin)")
        else if hitting then ("out", "Projected to hit stumps")
        else ("not_out", "Projected to miss stumps")
      .ok (some
        { likely_out := pitched_in_line && impact_in_line && hitting && decide (dr.1 = "out")
          pitching_in_line := pitched_in_line
          impact_in_line := impact_in_line
          wickets_hitting := hitting
          y_at_stumps_m := y_at_stumps
          confidence := max 0 (min 1 (2/10 + 8/10 * r2))
          r_squared := r2
          decision := dr.1
          reason := dr.2 })

/-! ## tracking.py -/

/-- `TrackPoint` dataclass (identical in `tracking.py` and `process_job.py`). -/
structure TrackPointQ where
  t_ms : ℤ
  x_px : ℚ
  y_px : ℚ
  confidence : ℚ
  deriving DecidableEq, Repr

/-- Dot product of two rows. -/
def dotQ (a b : List ℚ) : ℚ := (List.zipWith (· * ·) a b).sum

/-- numpy `@` on row-major rational matrices. -/
def matMul (A B : Mat) : Mat :=
  A.map (fun r => B.transpose.map (fun c => dotQ r c))

def matAdd (A B : Mat) : Mat := List.zipWith (List.zipWith (· + ·)) A B

def matSub (A B : Mat) : Mat := List.zipWith (List.zipWith (· - ·)) A B

/-- `np.clip` on a scalar. -/
def clipQ (v lo hi : ℚ) : ℚ := max lo (min hi v)

/-- Python `int(round(q))`.  Half-way cases round up here where Python
rounds to even; the value only positions the search window fed to the
detection oracle, and no theorem below depends on the tie behaviour. -/
def intRound (q : ℚ) : ℤ := ⌊q + 1/2⌋

/-- `Kalman2D` from `tracking.py`: state `x` is the 4×1 column
`[x, y, vx, vy]`, covariance `p` is 4×4. -/
structure Kalman2D where
  x : Mat
  p : Mat
  deriving DecidableEq, Repr

namespace Kalman2D

def process_noise_pos : ℚ := 16
def process_noise_vel : ℚ := 200
def measurement_noise : ℚ := 36

/-- `Kalman2D.__init__`. -/
def init (initial_x initial_y : ℚ) : Kalman2D :=
  { x := [[initial_x], [initial_y], [0], [0]]
    p := [[16, 0, 0, 0], [0, 16, 0, 0], [0, 0, 800, 0], [0, 0, 0, 800]] }

/-- `Kalman2D.pos`. -/
def pos (kf : Kalman2D) : ℚ × ℚ :=
  ((kf.x.getD 0 []).getD 0 0, (kf.x.getD 1 []).getD 0 0)

/-- `Kalman2D.predict`. -/
def predict (kf : Kalman2D) (dt : ℚ) : Kalman2D :=
  let f : Mat := [[1, 0, dt, 0], [0, 1, 0, dt], [0, 0, 1, 0], [0, 0, 0, 1]]
  let q : Mat := [[process_noise_pos, 0, 0, 0], [0, process_noise_pos, 0, 0],
                  [0, 0, process_noise_vel, 0], [0, 0, 0, process_noise_vel]]
  { x := matMul f kf.x
    p := matAdd (matMul (matMul f kf.p) f.transpose) q }

/-- `Kalman2D.update`.  `np.linalg.inv` raises `LinAlgError` exactly when
the 2×2 innovation matrix is singular, and the source then returns with the
filter unchanged; over `ℚ` that is the `det = 0` branch. -/
def update (kf : Kalman2D) (meas_x meas_y : ℚ) : Kalman2D :=
  let h : Mat := [[1, 0, 0, 0], [0, 1, 0, 0]]
  let r : Mat := [[measurement_noise, 0], [0, measurement_noise]]
  let z : Mat := [[meas_x], [meas_y]]
  let y := matSub z (matMul h kf.x)
  let s := matAdd (matMul (matMul h kf.p) h.transpose) r
  let s00 := (s.getD 0 []).getD 0 0
  let s01 := (s.getD 0 []).getD 1 0
  let s10 := (s.getD 1 []).getD 0 0
  let s11 := (s.getD 1 []).getD 1 0
  let det := s00 * s11 - s01 * s10
  if det = 0 then kf
  else
    let sinv : Mat := [[s11 / det, -s01 / det], [-s10 / det, s00 / det]]
    let k := matMul (matMul kf.p h.transpose) sinv
    let i4 : Mat := [[1, 0, 0, 0], [0, 1, 0, 0], [0, 0, 1, 0], [0, 0, 0, 1]]
    { x := matAdd kf.x (matMul k y)
      p := matMul (matSub i4 (matMul k h)) kf.p }

end Kalman2D

/-- Per-frame body of `track_seeded`, recursing over `zip(frames, times)`.
The frame type `α` and the colour-signature type `σ` are abstract; the
external pixel work (patch extraction + `ColorSignature.mask_close` +
`_centroid_from_mask`) is the oracle `centroidIn sig frame (x0, x1, y0, y1)`,
returning the centroid in patch coordinates or `none` when no pixel of the
(nonempty) patch matches.  `dims` is `frame.shape[:2] = (h, w)`. -/
def trackSeededLoop {α σ : Type} (dims : α → Nat × Nat)
    (centroidIn : σ → α → ℤ × ℤ × ℤ × ℤ → Option (ℚ × ℚ))
    (sig : σ) (sx sy : ℤ) (radius : ℤ) :
    List (α × ℤ) → Option ℤ → Option Kalman2D → Option (ℚ × ℚ) → List TrackPointQ
  | [], _, _, _ => []
  | (frame, t) :: rest, prev_t, kf0, last_meas0 =>
    let hw := dims frame
    let pred : ℚ × ℚ :=
      match kf0 with
      | none => ((sx : ℚ), (sy : ℚ))
      | some k => k.pos
    let cx := intRound (clipQ pred.1 0 ((hw.2 : ℚ) - 1))
    let cy := intRound (clipQ pred.2 0 ((hw.1 : ℚ) - 1))
    let r := max 12 radius
    let x0 := max 0 (cx - r)
    let x1 := min (hw.2 : ℤ) (cx + r + 1)
    let y0 := max 0 (cy - r)
    let y1 := min (hw.1 : ℤ) (cy + r + 1)
    let found : Option (ℚ × ℚ) :=
      if x0 < x1 ∧ y0 < y1 then
        match centroidIn sig frame (x0, x1, y0, y1) with
        | some (mx, my) => some ((x0 : ℚ) + mx, (y0 : ℚ) + my)
        | none => none
      else none
    let confidence : ℚ := if found.isSome then 95/100 else 35/100
    let meas : Option (ℚ × ℚ) :=
      match found, last_meas0 with
      | none, some lm => some lm
      | m, _ => m
    let kf1 : Option Kalman2D :=
      match kf0, meas with
      | none, some m => some (Kalman2D.init m.1 m.2)
      | k, _ => k
    let dt : ℚ :=
      match prev_t with
      | none => 1/30
      | some pt => max (1/1000) (((t - pt : ℤ) : ℚ) / 1000)
    let kf2 := kf1.map (fun k => k.predict dt)
    let st : Option Kalman2D × Option (ℚ × ℚ) :=
      match meas, kf2 with
      | some m, some k => (some (k.update m.1 m.2), some m)
      | _, _ => (kf2, last_meas0)
    let out : ℚ × ℚ :=
      match st.1, st.2 with
      | some k, _ => k.pos
      | none, some lm => lm
      | none, none => ((sx : ℚ), (sy : ℚ))
    ⟨t, out.1, out.2, confidence⟩ ::
      trackSeededLoop dims centroidIn sig sx sy radius rest (some t) st.1 st.2

/-- `track_seeded` from `tracking.py`.  `sigOf frame sx sy` models
`ColorSignature.from_bgr_frame` on frame 0 at the clipped seed. -/
def track_seeded {α σ : Type} (dims : α → Nat × Nat) (sigOf : α → ℤ → ℤ → σ)
    (centroidIn : σ → α → ℤ × ℤ × ℤ × ℤ → Option (ℚ × ℚ))
    (frames_bgr : List α) (times_ms : List ℤ) (seed_x seed_y : ℚ)
    (search_radius_px : ℤ) : Except String (List TrackPointQ) :=
  if frames_bgr.length ≠ times_ms.length then
    .error "frames_bgr and times_ms must have same length"
  else
    match frames_bgr with
    | [] => .ok []
    | f0 :: _ =>
      let hw0 := dims f0
      let sx := intRound (clipQ seed_x 0 ((hw0.2 : ℚ) - 1))
      let sy := intRound (clipQ seed_y 0 ((hw0.1 : ℚ) - 1))
      let sig := sigOf f0 sx sy
      .ok (trackSeededLoop dims centroidIn sig sx sy search_radius_px
        (frames_bgr.zip times_ms) none none none)

/-- The per-frame candidate selection of `track_auto` (lines 310–329 of
`tracking.py`), factored out: on the first frame there is no previous frame
and no measurement; afterwards the strongest-first candidates from motion
differencing are gated to the search radius around the filter's position
and scored by `dist² - 0.15·area`, the first strict minimum winning. -/
def autoSelect {α : Type} (fmc : α → α → List (ℚ × ℚ × ℚ)) (radius : ℤ)
    (prev : Option (α × ℤ)) (frame : α) (pos : ℚ × ℚ) : Option (ℚ × ℚ) :=
  match prev with
  | none => none
  | some pf =>
    match fmc pf.1 frame with
    | [] => none
    | cands =>
      let best := (cands.take 8).foldl (fun acc c =>
        let dx := c.1 - pos.1
        let dy := c.2.1 - pos.2
        let dist2 := dx * dx + dy * dy
        if dist2 > (((max 12 radius : ℤ) : ℚ))^2 then acc
        else
          let cost := dist2 - 15/100 * c.2.2
          match acc with
          | some bc => if cost < bc.2 then some (c, cost) else acc
          | none => some (c, cost)) none
      match best with
      | some bc => some (bc.1.1, bc.1.2.1)
      | none => none

/-- Per-frame body of `track_auto`.  `fmc prev curr` is the oracle for
`_find_motion_centroids` (entirely cv2 image work), returning `(cx, cy, area)`
candidates.  The source sets `confidence = 0.75` where the gated candidate
is adopted and overwrites it with `0.2`/`0.1` when there is no measurement;
that assignment is expressed here as a conditional on the measurement. -/
def trackAutoLoop {α : Type} (fmc : α → α → List (ℚ × ℚ × ℚ)) (radius : ℤ) :
    List (α × ℤ) → Option (α × ℤ) → Kalman2D → Option (ℚ × ℚ) → List TrackPointQ
  | [], _, _, _ => []
  | (frame, t) :: rest, prev, kf0, last_meas0 =>
    let dt : ℚ :=
      match prev with
      | none => 1/30
      | some pf => max (1/1000) (((t - pf.2 : ℤ) : ℚ) / 1000)
    let kf1 := kf0.predict dt
    let meas := autoSelect fmc radius prev frame kf1.pos
    let confidence : ℚ :=
      if meas.isSome then 75/100 else if last_meas0.isSome then 2/10 else 1/10
    let st : Kalman2D × Option (ℚ × ℚ) :=
      match meas with
      | some m => (kf1.update m.1 m.2, some m)
      | none => (kf1, last_meas0)
    let xy := st.1.pos
    ⟨t, xy.1, xy.2, confidence⟩ :: trackAutoLoop fmc radius rest (some (frame, t)) st.1 st.2

/-- `track_auto` from `tracking.py`. -/
def track_auto {α : Type} (fmc : α → α → List (ℚ × ℚ × ℚ))
    (frames_bgr : List α) (times_ms : List ℤ) (search_radius_px : ℤ) :
    Except String (List TrackPointQ) :=
  if frames_bgr.length ≠ times_ms.length then
    .error "frames_bgr and times_ms must have same length"
  else if frames_bgr.isEmpty then .ok []
  else if frames_bgr.length < 2 then .error "auto tracking requires at least 2 frames"
  else
    let initOpt : Option (ℚ × ℚ) :=
      (pyRange 1 (min 6 frames_bgr.length)).findSome? (fun i =>
        match frames_bgr[i-1]?, frames_bgr[i]? with
        | some fp, some fc =>
          match fmc fp fc with
          | [] => none
          | c :: _ => some (c.1, c.2.1)
        | _, _ => none)
    match initOpt with
    | none => .error "auto tracking failed: no moving object detected"
    | some ini =>
      .ok (trackAutoLoop fmc search_radius_px (frames_bgr.zip times_ms) none
        (Kalman2D.init ini.1 ini.2) (some ini))

/-! ## process_job.py — pixel tracking wrapper -/

/-- A detection dict produced by `detector.detect(frame)`:
`{"x": …, "y": …}` with an optional `"confidence"` key. -/
structure Detection where
  x : ℚ
  y : ℚ
  confidence : Option ℚ
  deriving DecidableEq, Repr

/-- `d.get("confidence", 0.0)` — the sort key used by `max(dets, key=…)`. -/
def Detection.key (d : Detection) : ℚ := d.confidence.getD 0

/-- `d.get("confidence", 0.5)` — the confidence stored on the track point. -/
def Detection.conf (d : Detection) : ℚ := d.confidence.getD (1/2)

/-- Python `max(d :: ds, key=Detection.key)`: the first maximal element. -/
def pyMaxByKey (d : Detection) (ds : List Detection) : Detection :=
  ds.foldl (fun best c => if best.key < c.key then c else best) d

/-- The gated nearest-detection scan of `_track_points` (lines 97–105 of
`process_job.py`): keep the strictly closest detection within the search
radius of the predicted position, scanning in order. -/
def gateNearest (pred : ℚ × ℚ) (radius : ℚ) (dets : List Detection) :
    Option (Detection × ℚ) :=
  dets.foldl (fun acc c =>
    let dx := c.x - pred.1
    let dy := c.y - pred.2
    let dist2 := dx * dx + dy * dy
    if dist2 ≤ radius * radius then
      match acc with
      | some bc => if dist2 < bc.2 then some (c, dist2) else acc
      | none => some (c, dist2)
    else acc) none

/-- The per-frame detection choice of `_track_points` (the `chosen`
computation, lines 80–109 of `process_job.py`), factored out: first-maximal
confidence when there is no last position (or in auto bootstrap), else the
gated nearest detection to the constant-velocity prediction, falling back
to the maximal-confidence one when nothing is gated. -/
def choosePoint (mode : String) (radius : ℚ) (last_xy prev_xy : Option (ℚ × ℚ))
    (dets : List Detection) : Option Detection :=
  match dets with
  | [] => none
  | d :: ds =>
    if mode = "auto" ∧ last_xy.isNone then some (pyMaxByKey d ds)
    else
      match last_xy with
      | none => some (pyMaxByKey d ds)
      | some l =>
        let pred : ℚ × ℚ :=
          match prev_xy with
          | some pv => (l.1 + (l.1 - pv.1), l.2 + (l.2 - pv.2))
          | none => l
        match gateNearest pred radius (d :: ds) with
        | none => some (pyMaxByKey d ds)
        | some bc => some bc.1

/-- Per-frame body of `_track_points`.  Note the `chosen is None ∧ last_xy is
None` case executes `continue`, producing no `TrackPoint` for that frame. -/
def trackPointsLoop {α : Type} (detect : α → List Detection) (mode : String)
    (radius : ℚ) :
    List (α × ℤ) → Option (ℚ × ℚ) → Option (ℚ × ℚ) → List TrackPointQ
  | [], _, _ => []
  | (frame, t) :: rest, last_xy, prev_xy =>
    match choosePoint mode radius last_xy prev_xy (detect frame) with
    | none =>
      match last_xy with
      | none => trackPointsLoop detect mode radius rest last_xy prev_xy
      | some l => ⟨t, l.1, l.2, 5/100⟩ :: trackPointsLoop detect mode radius rest last_xy prev_xy
    | some c =>
      ⟨t, c.x, c.y, c.conf⟩ ::
        trackPointsLoop detect mode radius rest (some (c.x, c.y)) last_xy

/-- `_track_points` from `process_job.py`.  `detect` stands for
`MotionBallDetector().detect` (a name the tracking module does not define;
see `trackingModuleNames` — the function as written can only run were that
name supplied, and is modelled here against an arbitrary detector). -/
def _track_points {α : Type} (detect : α → List Detection) (frames_bgr : List α)
    (times_ms : List ℤ) (mode : String) (seed_xy : Option (ℚ × ℚ))
    (search_radius_px : ℚ) : Except String (List TrackPointQ) :=
  if frames_bgr.length ≠ times_ms.length then
    .error "frames_bgr and times_ms length mismatch"
  else if mode = "seeded" ∧ seed_xy.isNone then
    .error "seed_px is required for seeded tracking"
  else
    let last0 : Option (ℚ × ℚ) := if mode = "seeded" then seed_xy else none
    .ok (trackPointsLoop detect mode search_radius_px (frames_bgr.zip times_ms) last0 none)

/-! ## process_job.py — module import and error mapping -/

/-- The top-level names defined by `server/app/pipeline/tracking.py`. -/
def trackingModuleNames : List String :=
  ["TrackPoint", "TrackingError", "_require_cv2", "Kalman2D", "ColorSignature",
   "_centroid_from_mask", "track_seeded", "_find_motion_centroids", "track_auto"]

/-- `from .tracking import MotionBallDetector` (line 13 of
`process_job.py`): resolves the name against the tracking module's
top-level definitions, raising `ImportError` when absent. -/
def importMotionBallDetector : Except String Unit :=
  if trackingModuleNames.contains "MotionBallDetector" then .ok ()
  else .error "cannot import name MotionBallDetector from app.pipeline.tracking"

/-- The exception taxonomy seen by `map_exception_to_api_error`. -/
inductive PyExc where
  | videoDecodeError (msg : String)
  | calibrationError (msg : String)
  | valueError (msg : String)
  | importError (msg : String)
  | other (msg : String)
  deriving DecidableEq, Repr

structure ApiError where
  code : String
  message : String
  deriving DecidableEq, Repr

/-- `map_exception_to_api_error` from `process_job.py`: the `isinstance`
chain recognises decode, calibration and value errors; everything else —
including the `ImportError` — is reported as a generic internal error. -/
def map_exception_to_api_error (exc : PyExc) : ApiError :=
  match exc with
  | .videoDecodeError m => ⟨"VIDEO_DECODE_FAILED", m⟩
  | .calibrationError m => ⟨"CALIBRATION_DEGENERATE", m⟩
  | .valueError m => ⟨"INVALID_REQUEST", m⟩
  | .importError m => ⟨"INTERNAL_ERROR", m⟩
  | .other m => ⟨"INTERNAL_ERROR", m⟩

/-- Calling `run_pipeline` first requires `process_job.py` to load, which
executes `from .tracking import MotionBallDetector` before any code of
`run_pipeline` can run.  The pipeline body proper is abstracted as `body`
over an arbitrary request type `ρ` and result type `π`; it is unreachable
when the import fails. -/
def run_pipeline_model {ρ π : Type} (body : ρ → Except PyExc π) (request : ρ) :
    Except PyExc π :=
  match importMotionBallDetector with
  | .error e => .error (.importError e)
  | .ok _ => body request

/-! ## Helper lemmas -/

/- Batteries marks the `Rat` field operations `@[irreducible]`; re-allow
unfolding so that `decide` can evaluate the embedded pipeline on concrete
rational inputs. -/
attribute [local semireducible] Rat.add Rat.mul Rat.inv Rat.sub

/-- `find?` on `range' s k` returns the first index satisfying the predicate:
if `i` is in the window and satisfies `p`, and nothing before it does, the
scan stops exactly at `i`. -/
theorem find?_range'_eq_some {p : Nat → Bool} {i : Nat} :
    ∀ (s k : Nat), s ≤ i → i < s + k → p i = true →
    (∀ j, s ≤ j → j < i → p j = false) →
    (List.range' s k).find? p = some i := by
  intro s k
  induction k generalizing s with
  | zero => intro h1 h2; omega
  | succ k ih =>
    intro h1 h2 hp hmin
    rw [List.range'_succ]
    rcases eq_or_lt_of_le h1 with rfl | hlt
    · rw [List.find?_cons_of_pos _ hp]
    · rw [List.find?_cons_of_neg _ (by simp [hmin s le_rfl hlt])]
      exact ih (s + 1) hlt (by omega) hp fun j hj hj' => hmin j (by omega) hj'

/-- `find?` on `range' s k` fails when no index in the window satisfies the
predicate. -/
theorem find?_range'_eq_none {p : Nat → Bool} (s k : Nat)
    (h : ∀ j, s ≤ j → j < s + k → p j = false) :
    (List.range' s k).find? p = none := by
  rw [List.find?_eq_none]
  intro x hx
  have hx' : s ≤ x ∧ x < s + k := by
    have := List.mem_range'_1.mp hx
    omega
  simp [h x hx'.1 hx'.2]

/-- The first difference list built by the bounce estimator, read back
pointwise. -/
theorem bounce_dy_getD (y : List ℚ) (i : Nat) (h : i < y.length - 1) :
    ((List.range (y.length - 1)).map (fun j => y.getD (j + 1) 0 - y.getD j 0)).getD i 0
      = y.getD (i + 1) 0 - y.getD i 0 := by
  rw [List.getD_eq_getElem?_getD, List.getElem?_map, List.getElem?_range h]
  rfl

/-! ## Claim C7 -/

/-- Claim C7 as stated is false.  For `y = [0, 1, 2, 3, 2]` (5 points) the
first positive-to-negative transition of the differences, scanning from
index 2, is at index 3 (`dy = [1, 1, 1, -1]`), so the claim predicts
`(3, 0.6)` — but the source's scan `range(2, len(dy) - 1)` excludes the
final difference, finds nothing, and falls back to `(max 1 (5 // 3), 0.2)
= (1, 0.2)`. -/
theorem C7_counterexample :
    claimed_bounce_index [0, 1, 2, 3, 2] = ⟨3, 3/5⟩ ∧
    estimate_bounce_index [0, 1, 2, 3, 2] = ⟨1, 1/5⟩ ∧
    estimate_bounce_index [0, 1, 2, 3, 2] ≠ claimed_bounce_index [0, 1, 2, 3, 2] := by
  refine ⟨by decide, by decide, by decide⟩

/-- Claim C7, amended: for fewer than 5 points the estimator returns
`(n - 1, 0.1)` (index 0 for the empty list); otherwise it returns
`(i, 0.6)` for the first transition index `i` with `2 ≤ i ≤ n - 3` — the
final first-difference is excluded from the scan — and falls back to
`(max 1 ⌊n/3⌋, 0.2)` when no transition lies in that window.  Here the
transition condition at scan index `i` is
`y[i] - y[i-1] > 0 ∧ y[i+1] - y[i] < 0`. -/
theorem C7_amended (y : List ℚ) :
    (y.length < 5 → estimate_bounce_index y = ⟨y.length - 1, 1/10⟩) ∧
    (5 ≤ y.length →
      ∀ i : Nat, 2 ≤ i → i + 3 ≤ y.length →
        0 < y.getD i 0 - y.getD (i - 1) 0 → y.getD (i + 1) 0 - y.getD i 0 < 0 →
        (∀ j : Nat, 2 ≤ j → j < i →
          ¬(0 < y.getD j 0 - y.getD (j - 1) 0 ∧ y.getD (j + 1) 0 - y.getD j 0 < 0)) →
        estimate_bounce_index y = ⟨i, 3/5⟩) ∧
    (5 ≤ y.length →
      (∀ i : Nat, 2 ≤ i → i + 3 ≤ y.length →
        ¬(0 < y.getD i 0 - y.getD (i - 1) 0 ∧ y.getD (i + 1) 0 - y.getD i 0 < 0)) →
      estimate_bounce_index y = ⟨max 1 (y.length / 3), 1/5⟩) := by
  refine ⟨fun h => by simp [estimate_bounce_index, h], fun hn i h2 h3 hpos hneg hmin => ?_,
    fun hn hnone => ?_⟩
  · have hfind : (pyRange 2
        (((List.range (y.length - 1)).map
          (fun j => y.getD (j + 1) 0 - y.getD j 0)).length - 1)).find?
        (fun i => decide (0 < ((List.range (y.length - 1)).map
            (fun j => y.getD (j + 1) 0 - y.getD j 0)).getD (i - 1) 0) &&
          decide (((List.range (y.length - 1)).map
            (fun j => y.getD (j + 1) 0 - y.getD j 0)).getD i 0 < 0)) = some i := by
      rw [List.length_map, List.length_range]
      refine find?_range'_eq_some 2 (y.length - 1 - 1 - 2) h2 (by omega) ?_ ?_
      · rw [bounce_dy_getD y (i - 1) (by omega), bounce_dy_getD y i (by omega)]
        have hi1 : i - 1 + 1 = i := by omega
        rw [hi1, Bool.and_eq_true, decide_eq_true_eq, decide_eq_true_eq]
        exact ⟨hpos, hneg⟩
      · intro j hj hj'
        rw [bounce_dy_getD y (j - 1) (by omega), bounce_dy_getD y j (by omega)]
        have hj1 : j - 1 + 1 = j := by omega
        rw [hj1]
        rcases Bool.eq_false_or_eq_true (decide (0 < y.getD j 0 - y.getD (j - 1) 0)) with hp | hp
        · rw [hp, Bool.true_and, decide_eq_false_iff_not]
          intro hq
          exact hmin j hj hj' ⟨of_decide_eq_true hp, hq⟩
        · rw [hp, Bool.false_and]
    · simp only [estimate_bounce_index]
      rw [if_neg (by omega), hfind]
  · have hfind : (pyRange 2
        (((List.range (y.length - 1)).map
          (fun j => y.getD (j + 1) 0 - y.getD j 0)).length - 1)).find?
        (fun i => decide (0 < ((List.range (y.length - 1)).map
            (fun j => y.getD (j + 1) 0 - y.getD j 0)).getD (i - 1) 0) &&
          decide (((List.range (y.length - 1)).map
            (fun j => y.getD (j + 1) 0 - y.getD j 0)).getD i 0 < 0)) = none := by
      rw [List.length_map, List.length_range]
      refine find?_range'_eq_none 2 (y.length - 1 - 1 - 2) ?_
      intro j hj hj'
      rw [bounce_dy_getD y (j - 1) (by omega), bounce_dy_getD y j (by omega)]
      have hj1 : j - 1 + 1 = j := by omega
      rw [hj1]
      rcases Bool.eq_false_or_eq_true (decide (0 < y.getD j 0 - y.getD (j - 1) 0)) with hp | hp
      · rw [hp, Bool.true_and, decide_eq_false_iff_not]
        intro hq
        exact hnone j hj (by omega) ⟨of_decide_eq_true hp, hq⟩
      · rw [hp, Bool.false_and]
    simp only [estimate_bounce_index]
    rw [if_neg (by omega), hfind]

/-- Witness for `C7_amended` at `y = [0, 1, 2, 3, 2]`: no transition lies in
the scanned window `[2, n-3] = [2, 2]`, so the fallback `(1, 0.2)` fires. -/
theorem C7_amended_witness :
    estimate_bounce_index [0, 1, 2, 3, 2] = ⟨max 1 (5 / 3), 1/5⟩ := by
  refine (C7_amended [0, 1, 2, 3, 2]).2.2 (by decide) ?_
  intro i h2 h3
  simp only [List.length_cons, List.length_nil] at h3
  have hi : i = 2 := by omega
  subst hi
  decide

/-! ## Claim C8 -/

/-- Claim C8 as stated is false: the impact estimator at point count 0
returns confidence 0, not a confidence strictly greater than 0. -/
theorem C8_counterexample :
    estimate_impact_index 0 = ⟨0, 0⟩ ∧ ¬(0 < (estimate_impact_index 0).confidence) := by
  refine ⟨by decide, by decide⟩

/-- Claim C8, amended: neither estimator raises on a length-0 or length-1
input.  At length 1 both return index 0 (in range) with positive confidence
(0.1 and 0.5).  At length 0 the bounce estimator returns `(0, 0.1)` (index 0
clamped, confidence positive, though no valid index exists), while the
impact estimator returns `(0, 0)` — confidence zero, not positive. -/
theorem C8_amended :
    (∀ a : ℚ, estimate_bounce_index [a] = ⟨0, 1/10⟩ ∧
      (estimate_bounce_index [a]).index < 1 ∧ 0 < (estimate_bounce_index [a]).confidence) ∧
    estimate_bounce_index ([] : List ℚ) = ⟨0, 1/10⟩ ∧
    0 < (estimate_bounce_index ([] : List ℚ)).confidence ∧
    estimate_impact_index 1 = ⟨0, 1/2⟩ ∧ (estimate_impact_index 1).index < 1 ∧
    0 < (estimate_impact_index 1).confidence ∧
    estimate_impact_index 0 = ⟨0, 0⟩ := by
  refine ⟨fun a => ?_, by decide, by decide, by decide, by decide, by decide, by decide⟩
  have h : estimate_bounce_index [a] = ⟨0, 1/10⟩ := by
    simp [estimate_bounce_index]
  refine ⟨h, by rw [h]; decide, by rw [h]; decide⟩

/-- Witness for `C8_amended`, instantiating the bounce-estimator clause at
the singleton list `[5]`. -/
theorem C8_amended_witness :
    estimate_bounce_index [(5 : ℚ)] = ⟨0, 1/10⟩ ∧
    (estimate_bounce_index [(5 : ℚ)]).index < 1 ∧
    0 < (estimate_bounce_index [(5 : ℚ)]).confidence :=
  C8_amended.1 5

/-! ## Claim C3 -/

/-- Claim C3: the tracking module defines no `MotionBallDetector`, so the
`from .tracking import MotionBallDetector` executed when `process_job.py`
loads raises, every `run_pipeline` invocation fails before any pipeline
stage runs, and the raised `ImportError` maps to the generic
`INTERNAL_ERROR` API error. -/
theorem C3_import_always_fails :
    trackingModuleNames.contains "MotionBallDetector" = false ∧
    (∀ (ρ π : Type) (body : ρ → Except PyExc π) (request : ρ),
      run_pipeline_model body request = .error (.importError
        "cannot import name MotionBallDetector from app.pipeline.tracking") ∧
      ∀ r, run_pipeline_model body request ≠ .ok r) ∧
    (map_exception_to_api_error (.importError
      "cannot import name MotionBallDetector from app.pipeline.tracking")).code =
      "INTERNAL_ERROR" := by
  refine ⟨by decide, fun ρ π body request => ⟨rfl, fun r h => ?_⟩, rfl⟩
  rw [show run_pipeline_model body request = .error (.importError
    "cannot import name MotionBallDetector from app.pipeline.tracking") from rfl] at h
  exact Except.noConfusion h

/-- Witness for `C3_import_always_fails` at a concrete trivial pipeline
body and request. -/
theorem C3_import_always_fails_witness :
    run_pipeline_model (fun _ : Unit => Except.ok ()) () = .error (.importError
      "cannot import name MotionBallDetector from app.pipeline.tracking") :=
  ((C3_import_always_fails.2.1 Unit Unit (fun _ => Except.ok ()) ()).1)

/-! ## Claim C6 -/

/-- Claim C6 as stated is false: `compute_homography` performs no finiteness
or determinant check.  With 4 valid correspondences and a solver that
produces the zero matrix (determinant 0), the function succeeds and returns
that matrix, so "otherwise it returns a 3x3 matrix with … determinant
magnitude above that epsilon" fails for every positive epsilon. -/
theorem C6_counterexample :
    compute_homography (fun _ _ => some [[0,0,0],[0,0,0],[0,0,0]])
        [(0,0),(0,1),(1,1),(1,0)] [(0,0),(0,1),(1,1),(1,0)] =
      .ok [[0,0,0],[0,0,0],[0,0,0]] ∧
    det3 [[0,0,0],[0,0,0],[0,0,0]] = 0 ∧
    ∀ ε : ℚ, 0 < ε → ¬(ε ≤ |det3 [[0,0,0],[0,0,0],[0,0,0]]|) := by
  refine ⟨by decide, by decide, fun ε hε h => ?_⟩
  rw [show det3 [[0,0,0],[0,0,0],[0,0,0]] = 0 from by decide] at h
  simp at h
  exact absurd (lt_of_lt_of_le hε h) (lt_irrefl 0)

/-- Claim C6, amended: `compute_homography` fails exactly when the image and
world point counts differ, fewer than 4 correspondences are supplied, or the
external solve returns no matrix; on success it returns the solver's matrix
unchecked (no finiteness or determinant validation). -/
theorem C6_amended (findH : List (ℚ × ℚ) → List (ℚ × ℚ) → Option Mat)
    (image_points world_points : List (ℚ × ℚ)) :
    ((∃ e, compute_homography findH image_points world_points = .error e) ↔
      (image_points.length ≠ world_points.length ∨ image_points.length < 4 ∨
        findH image_points world_points = none)) ∧
    (∀ H, findH image_points world_points = some H →
      image_points.length = world_points.length → 4 ≤ image_points.length →
      compute_homography findH image_points world_points = .ok H) := by
  constructor
  · constructor
    · rintro ⟨e, he⟩
      by_cases h1 : image_points.length = world_points.length
      · by_cases h2 : image_points.length < 4
        · exact Or.inr (Or.inl h2)
        · rcases hf : findH image_points world_points with _ | H
          · exact Or.inr (Or.inr rfl)

          · rw [compute_homography, if_neg (by omega), if_neg (by omega), hf] at he
            exact Except.noConfusion he
      · exact Or.inl h1
    · intro h
      rcases h with h | h | h
      · exact ⟨"Point count mismatch", by rw [compute_homography, if_pos h]⟩
      · by_cases h1 : image_points.length = world_points.length
        · exact ⟨"Need at least 4 correspondences",
            by rw [compute_homography, if_neg (by omega), if_pos h]⟩
        · exact ⟨"Point count mismatch", by rw [compute_homography, if_pos h1]⟩
      · by_cases h1 : image_points.length = world_points.length
        · by_cases h2 : image_points.length < 4
          · exact ⟨"Need at least 4 correspondences",
              by rw [compute_homography, if_neg (by omega), if_pos h2]⟩
          · exact ⟨"Homography computation failed",
              by rw [compute_homography, if_neg (by omega), if_neg h2, h]⟩
        · exact ⟨"Point count mismatch", by rw [compute_homography, if_pos h1]⟩
  · intro H hf h1 h2
    rw [compute_homography, if_neg (by omega), if_neg (by omega), hf]

/-- Witness for `C6_amended`, instantiated at a concrete solver and the four
unit-square correspondences: the success clause returns the solver's matrix. -/
theorem C6_amended_witness :
    compute_homography (fun _ _ => some [[1,0,0],[0,1,0],[0,0,1]])
        [(0,0),(0,1),(1,1),(1,0)] [(0,0),(0,1),(1,1),(1,0)] =
      .ok [[1,0,0],[0,1,0],[0,0,1]] :=
  (C6_amended (fun _ _ => some [[1,0,0],[0,1,0],[0,0,1]])
    [(0,0),(0,1),(1,1),(1,0)] [(0,0),(0,1),(1,1),(1,0)]).2
    [[1,0,0],[0,1,0],[0,0,1]] rfl (by decide) (by decide)

/-! ## Claim C5 -/

/-- Claim C5 as stated is false: with a solver that solves the 4-corner
system but fails on the 6-correspondence refinement,
`_compute_taps_homography` propagates the calibration error instead of
falling back to the 4-point homography. -/
theorem C5_counterexample :
    compute_homography (fun ipts _ => if ipts.length = 4
        then some [[1,0,0],[0,1,0],[0,0,1]] else none)
      [(0,0),(0,1),(1,1),(1,0)] (worldPoints (2012/100) (305/100)) =
      .ok [[1,0,0],[0,1,0],[0,0,1]] ∧
    _compute_taps_homography (fun ipts _ => if ipts.length = 4
        then some [[1,0,0],[0,1,0],[0,0,1]] else none)
      [(0,0),(0,1),(1,1),(1,0)] (2012/100) (305/100) (some [(0,0),(1,0)]) =
      .error "Homography computation failed" := by
  refine ⟨by decide, by decide⟩

/-- Claim C5, amended: when two stump-base points are supplied and the
refined 6-correspondence solve fails, the calibration error propagates and
the job fails — there is no fallback to the 4-point homography.  (The only
silent tolerance in the refinement path concerns non-finite stump
projections, which merely keep the given point order.)  When no stump pair
is supplied the 4-point homography is returned with no warning notes. -/
theorem C5_amended (findH : List (ℚ × ℚ) → List (ℚ × ℚ) → Option Mat)
    (corners : List (ℚ × ℚ)) (L W : ℚ) (p0 p1 : ℚ × ℚ) (H0 : Mat)
    (hbase : compute_homography findH corners (worldPoints L W) = .ok H0)
    (href : ∀ q0 q1 : ℚ × ℚ,
      findH (corners ++ [q0, q1]) (worldPoints L W ++ [(0, 0), (L, 0)]) = none) :
    _compute_taps_homography findH corners L W (some [p0, p1]) =
      .error "Homography computation failed" ∧
    _compute_taps_homography findH corners L W none = .ok (H0, []) := by
  have hlen : corners.length = 4 := by
    by_contra hc
    rw [compute_homography] at hbase
    rcases Nat.lt_or_ge corners.length 4 with hlt | hge
    · rw [if_pos (by simp [worldPoints]; omega)] at hbase
      exact Except.noConfusion hbase
    · rw [if_pos (by simp [worldPoints]; omega)] at hbase
      exact Except.noConfusion hbase
  have hrefined : ∀ q0 q1 : ℚ × ℚ,
      compute_homography findH (corners ++ [q0, q1])
        (worldPoints L W ++ [(0, 0), (L, 0)]) = .error "Homography computation failed" := by
    intro q0 q1
    rw [compute_homography, if_neg (by simp [worldPoints, hlen]),
      if_neg (by simp [hlen]), href q0 q1]
  constructor
  · rw [_compute_taps_homography, hbase]
    rcases h0 : apply_homography H0 p0.1 p0.2 with _ | q0 <;>
      rcases h1 : apply_homography H0 p1.1 p1.2 with _ | q1
    · simp only [hrefined]
    · simp only [hrefined]
    · simp only [hrefined]
    · rcases q0 with ⟨x0, y0⟩
      rcases q1 with ⟨x1, y1⟩
      by_cases hle : x0 ≤ x1
      · simp only [if_pos hle, hrefined]
      · simp only [if_neg hle, hrefined]
  · rw [_compute_taps_homography, hbase]

/-- Witness for `C5_amended` at the concrete 4-only solver of the
counterexample. -/
theorem C5_amended_witness :
    _compute_taps_homography (fun ipts _ => if ipts.length = 4
        then some [[1,0,0],[0,1,0],[0,0,1]] else none)
      [(0,0),(0,1),(1,1),(1,0)] (2012/100) (305/100) (some [(0,0),(1,0)]) =
      .error "Homography computation failed" ∧
    _compute_taps_homography (fun ipts _ => if ipts.length = 4
        then some [[1,0,0],[0,1,0],[0,0,1]] else none)
      [(0,0),(0,1),(1,1),(1,0)] (2012/100) (305/100) none =
      .ok ([[1,0,0],[0,1,0],[0,0,1]], []) :=
  C5_amended (fun ipts _ => if ipts.length = 4
      then some [[1,0,0],[0,1,0],[0,0,1]] else none)
    [(0,0),(0,1),(1,1),(1,0)] (2012/100) (305/100) (0,0) (1,0)
    [[1,0,0],[0,1,0],[0,0,1]] (by decide) (fun q0 q1 => by simp)

/-! ## Claim C9 -/

/-- Claim C9: for any solver, pitch corners and stump pair whose two
projections under the preliminary homography are finite and have distinct
x-coordinates, supplying the stump bases in either order produces the same
refined homography (exactly, hence within 1e-6): the calibrator re-orders
the pair by projected x before re-solving. -/
theorem C9_stump_order_invariance
    (findH : List (ℚ × ℚ) → List (ℚ × ℚ) → Option Mat)
    (corners : List (ℚ × ℚ)) (L W : ℚ) (p0 p1 : ℚ × ℚ) (H0 : Mat)
    (hbase : compute_homography findH corners (worldPoints L W) = .ok H0)
    (q0 q1 : ℚ × ℚ)
    (h0 : apply_homography H0 p0.1 p0.2 = some q0)
    (h1 : apply_homography H0 p1.1 p1.2 = some q1)
    (hne : q0.1 ≠ q1.1) :
    _compute_taps_homography findH corners L W (some [p0, p1]) =
      _compute_taps_homography findH corners L W (some [p1, p0]) := by
  rw [_compute_taps_homography, _compute_taps_homography, hbase]
  rcases q0 with ⟨x0, y0⟩
  rcases q1 with ⟨x1, y1⟩
  simp only [h0, h1]
  rcases lt_or_gt_of_ne (hne : x0 ≠ x1) with hlt | hgt
  · rw [if_pos (le_of_lt hlt), if_neg (not_le.mpr hlt)]
  · rw [if_neg (not_le.mpr hgt), if_pos (le_of_lt hgt)]

/-- Witness for `C9_stump_order_invariance`: identity solver, unit-square
corners, stump points `(0,0)` and `(1,0)` projecting to x-coordinates 0 ≠ 1. -/
theorem C9_stump_order_invariance_witness :
    _compute_taps_homography (fun _ _ => some [[1,0,0],[0,1,0],[0,0,1]])
      [(0,0),(0,1),(1,1),(1,0)] 20 3 (some [((0:ℚ),(0:ℚ)), ((1:ℚ),(0:ℚ))]) =
    _compute_taps_homography (fun _ _ => some [[1,0,0],[0,1,0],[0,0,1]])
      [(0,0),(0,1),(1,1),(1,0)] 20 3 (some [((1:ℚ),(0:ℚ)), ((0:ℚ),(0:ℚ))]) :=
  C9_stump_order_invariance (fun _ _ => some [[1,0,0],[0,1,0],[0,0,1]])
    [(0,0),(0,1),(1,1),(1,0)] 20 3 (0,0) (1,0) [[1,0,0],[0,1,0],[0,0,1]]
    (by decide) (0, 0) (1, 0) (by decide) (by decide) (by decide)

/-! ## Claim C4 -/

/-- Claim C4: the LBW decision engine fails fast — returning an error and no
assessment — whenever the trajectory is empty, the bounce (pitch) index is
out of range, or the derived impact index (the last point) is not strictly
greater than the bounce index. -/
theorem C4_fail_fast (pts : List (ℚ × ℚ)) (pitch_index : ℤ)
    (confs : Option (List ℚ)) (ptp : Nat)
    (h : pts = [] ∨ pitch_index < 0 ∨ (pts.length : ℤ) ≤ pitch_index ∨
      (pts.length : ℤ) - 1 ≤ pitch_index) :
    ∃ e, assess_lbw pts pitch_index confs ptp = .error e := by
  rw [assess_lbw]
  by_cases hemp : pts.isEmpty
  · exact ⟨_, by rw [if_pos hemp]⟩
  · rw [if_neg hemp]
    have hlen : 0 < pts.length := by
      cases pts with
      | nil => simp at hemp
      | cons a l => simp
    by_cases hoor : pitch_index < 0 ∨ (pts.length : ℤ) ≤ pitch_index
    · exact ⟨_, by rw [if_pos hoor]⟩
    · rw [if_neg hoor]
      push_neg at hoor
      have himp : pts.length - 1 ≤ pitch_index.toNat := by
        rcases h with h | h | h | h
        · exact absurd h (by intro hh; rw [hh] at hemp; simp at hemp)
        · exact absurd h (by omega)
        · exact absurd h (by omega)
        · omega
      exact ⟨_, by rw [if_pos himp]⟩

/-- Witness for `C4_fail_fast` at the empty trajectory. -/
theorem C4_fail_fast_witness :
    ∃ e, assess_lbw [] 0 none 15 = .error e :=
  C4_fail_fast [] 0 none 15 (Or.inl rfl)

/-! ## Claim C1 -/

/-- Case analysis of the decision ladder of `assess_lbw`. -/
theorem lbwDecisionChain_cases (P I : Bool) (Y C : ℚ) :
    (P = false → lbwDecisionChain P I Y C = ("not_out", "Pitched outside leg stump")) ∧
    (P = true → I = false → lbwDecisionChain P I Y C = ("not_out", "Impact outside off stump")) ∧
    (P = true → I = true →
      ((|Y| ≤ WICKET_WIDTH_M / 2 → (lbwDecisionChain P I Y C).1 = "out") ∧
       (¬ |Y| ≤ WICKET_WIDTH_M / 2 → |Y| ≤ WICKET_WIDTH_M / 2 + UMPIRES_CALL_ZONE_M →
          lbwDecisionChain P I Y C = ("umpires_call", "Clipping stumps - Umpire's call")) ∧
       (¬ |Y| ≤ WICKET_WIDTH_M / 2 + UMPIRES_CALL_ZONE_M →
          lbwDecisionChain P I Y C = ("not_out", "Missing stumps")))) := by
  refine ⟨fun hP => ?_, fun hP hI => ?_, fun hP hI =>
    ⟨fun hb => ?_, fun hb1 hb2 => ?_, fun hb => ?_⟩⟩
  · subst hP
    simp [lbwDecisionChain]
  · subst hP
    subst hI
    simp [lbwDecisionChain]
  · subst hP
    subst hI
    simp [lbwDecisionChain, hb]
  · subst hP
    subst hI
    simp [lbwDecisionChain, hb1, hb2]
  · subst hP
    subst hI
    have hb1 : ¬ |Y| ≤ WICKET_WIDTH_M / 2 := fun hc => hb (le_trans hc
      (le_add_of_nonneg_right (by rw [UMPIRES_CALL_ZONE_M, BALL_RADIUS_M]; norm_num)))
    simp [lbwDecisionChain, hb1, hb]

/-- For valid indices, `assess_lbw` succeeds, and the result's flags,
decision and reason are the decision ladder applied to the in-line tests of
the bounce and impact offsets and the (existentially abstracted) projected
`y_at_stumps` and confidence. -/
theorem assess_lbw_ok_form (pts : List (ℚ × ℚ)) (k : ℤ) (confs : Option (List ℚ))
    (ptp : Nat) (hk : 0 ≤ k) (hk2 : k + 1 < (pts.length : ℤ)) :
    ∃ Y C R, assess_lbw pts k confs ptp = .ok
      { pitched_in_line := _in_line_y ((pts.getD k.toNat (0, 0)).2)
        impact_in_line := _in_line_y ((pts.getD (pts.length - 1) (0, 0)).2)
        wickets_hitting := _in_line_y Y
        y_at_stumps_m := Y
        decision_key := (lbwDecisionChain (_in_line_y ((pts.getD k.toNat (0, 0)).2))
          (_in_line_y ((pts.getD (pts.length - 1) (0, 0)).2)) Y C).1
        reason := (lbwDecisionChain (_in_line_y ((pts.getD k.toNat (0, 0)).2))
          (_in_line_y ((pts.getD (pts.length - 1) (0, 0)).2)) Y C).2
        prediction_confidence := C
        prediction_r_squared := R } := by
  have hne : ¬ pts.isEmpty = true := by
    cases pts with
    | nil => simp at hk2; omega
    | cons p l => simp
  have hoor : ¬ (k < 0 ∨ (pts.length : ℤ) ≤ k) := by omega
  have himp : ¬ (pts.length - 1 ≤ k.toNat) := by omega
  rw [assess_lbw, if_neg hne, if_neg hoor, if_neg himp]
  exact ⟨_, _, _, rfl⟩

/-- Claim C1: for every trajectory with a valid bounce index (and the
derived impact index, the last point, strictly after it), `assess_lbw`
classifies in order: a bounce offset beyond `wicket_half_width +
ball_radius = 0.1503` gives not_out with reason "Pitched outside leg
stump"; otherwise an impact offset beyond the same threshold gives
not_out; otherwise `|y_at_stumps_m| ≤ 0.1143` gives out, `≤ 0.1503`
gives umpires_call, and beyond that not_out — and `wickets_hitting`
records whether the projected point is within the threshold.  The literal
tail `[(5,0),(4,0),(3,0),(2,0),(1,0)]` with bounce index 0 yields
`wickets_hitting = true` and a decision in `{out, umpires_call}`. -/
theorem C1_decision_order (pts : List (ℚ × ℚ)) (k : ℤ) (confs : Option (List ℚ))
    (ptp : Nat) (hk : 0 ≤ k) (hk2 : k + 1 < (pts.length : ℤ)) :
    (∃ a, assess_lbw pts k confs ptp = .ok a ∧
      ((¬ |(pts.getD k.toNat (0, 0)).2| ≤ WICKET_WIDTH_M / 2 + BALL_RADIUS_M →
          a.decision_key = "not_out" ∧ a.reason = "Pitched outside leg stump") ∧
       (|(pts.getD k.toNat (0, 0)).2| ≤ WICKET_WIDTH_M / 2 + BALL_RADIUS_M →
        ¬ |(pts.getD (pts.length - 1) (0, 0)).2| ≤ WICKET_WIDTH_M / 2 + BALL_RADIUS_M →
          a.decision_key = "not_out") ∧
       (|(pts.getD k.toNat (0, 0)).2| ≤ WICKET_WIDTH_M / 2 + BALL_RADIUS_M →
        |(pts.getD (pts.length - 1) (0, 0)).2| ≤ WICKET_WIDTH_M / 2 + BALL_RADIUS_M →
          (a.wickets_hitting = _in_line_y a.y_at_stumps_m ∧
           (|a.y_at_stumps_m| ≤ WICKET_WIDTH_M / 2 → a.decision_key = "out") ∧
           (¬ |a.y_at_stumps_m| ≤ WICKET_WIDTH_M / 2 →
            |a.y_at_stumps_m| ≤ WICKET_WIDTH_M / 2 + BALL_RADIUS_M →
              a.decision_key = "umpires_call") ∧
           (¬ |a.y_at_stumps_m| ≤ WICKET_WIDTH_M / 2 + BALL_RADIUS_M →
              a.decision_key = "not_out"))))) ∧
    (∃ a, assess_lbw [(5,0),(4,0),(3,0),(2,0),(1,0)] 0 none 15 = .ok a ∧
      a.wickets_hitting = true ∧
      (a.decision_key = "out" ∨ a.decision_key = "umpires_call")) := by
  constructor
  · obtain ⟨Y, C, R, heq⟩ := assess_lbw_ok_form pts k confs ptp hk hk2
    set P := _in_line_y ((pts.getD k.toNat (0, 0)).2) with hP
    set I := _in_line_y ((pts.getD (pts.length - 1) (0, 0)).2) with hI
    have hcases := lbwDecisionChain_cases P I Y C
    refine ⟨_, heq, fun h => ?_, fun h1 h2 => ?_, fun h1 h2 => ?_⟩
    · have hPf : P = false := by
        rw [hP, _in_line_y]
        exact decide_eq_false (by rw [LINE_TOLERANCE_M] at *; exact h)
      have := hcases.1 hPf
      exact ⟨by rw [show (lbwDecisionChain P I Y C).1 = "not_out" from by rw [this]],
        by rw [show (lbwDecisionChain P I Y C).2 = "Pitched outside leg stump" from by rw [this]]⟩
    · have hPt : P = true := by
        rw [hP, _in_line_y]
        exact decide_eq_true (by rw [LINE_TOLERANCE_M] at *; exact h1)
      have hIf : I = false := by
        rw [hI, _in_line_y]
        exact decide_eq_false (by rw [LINE_TOLERANCE_M] at *; exact h2)
      have := hcases.2.1 hPt hIf
      exact by rw [show (lbwDecisionChain P I Y C).1 = "not_out" from by rw [this]]
    · have hPt : P = true := by
        rw [hP, _in_line_y]
        exact decide_eq_true (by rw [LINE_TOLERANCE_M] at *; exact h1)
      have hIt : I = true := by
        rw [hI, _in_line_y]
        exact decide_eq_true (by rw [LINE_TOLERANCE_M] at *; exact h2)
      have hb := hcases.2.2 hPt hIt
      refine ⟨rfl, fun hy => hb.1 hy, fun hy1 hy2 => ?_, fun hy => ?_⟩
      · have := hb.2.1 hy1 (by rw [UMPIRES_CALL_ZONE_M]; exact hy2)
        exact by rw [show (lbwDecisionChain P I Y C).1 = "umpires_call" from by rw [this]]
      · have := hb.2.2 (by rw [UMPIRES_CALL_ZONE_M]; exact hy)
        exact by rw [show (lbwDecisionChain P I Y C).1 = "not_out" from by rw [this]]
  · have h : (assess_lbw [(5,0),(4,0),(3,0),(2,0),(1,0)] 0 none 15).toOption.map
        (fun a => (a.wickets_hitting, a.decision_key)) = some (true, "out") := by decide
    rcases hres : assess_lbw [(5,0),(4,0),(3,0),(2,0),(1,0)] 0 none 15 with e | a
    · rw [hres] at h
      simp [Except.toOption] at h
    · rw [hres] at h
      simp [Except.toOption] at h
      exact ⟨a, rfl, h.1, Or.inl h.2⟩

/-- Witness for `C1_decision_order` at the literal 5-point tail, bounce
index 0: the assessment succeeds (a closed instance of the first clause)
and the literal clause holds. -/
theorem C1_decision_order_witness :
    ∃ a, assess_lbw [(5,0),(4,0),(3,0),(2,0),(1,0)] 0 none 15 = .ok a ∧
      a.wickets_hitting = true ∧
      (a.decision_key = "out" ∨ a.decision_key = "umpires_call") :=
  (C1_decision_order [(5,0),(4,0),(3,0),(2,0),(1,0)] 0 none 15 (by decide)
    (by decide)).2

/-! ## Claim C10 -/

/-- Claim C10 as stated is false: with 3 points, bounce index 2 and impact
index 0 (clamped impact replaced by `n - 1 = 2`), the tail slice
`pitch_points_m[2..3]` reads index 3 of a 3-element list and raises
`IndexError` — the assessor neither returns `None` nor an assessment
dict. -/
theorem C10_counterexample :
    _assess_lbw_2d [(0,0),(1,0),(2,0)] 2 0 none = .error "list index out of range" ∧
    (∀ r, _assess_lbw_2d [(0,0),(1,0),(2,0)] 2 0 none ≠ .ok r) := by
  refine ⟨by decide, fun r h => ?_⟩
  rw [show _assess_lbw_2d [(0,0),(1,0),(2,0)] 2 0 none =
    .error "list index out of range" from by decide] at h
  exact Except.noConfusion h

set_option maxHeartbeats 2000000 in
/-- Claim C10, amended: for fewer than 3 plane points `_assess_lbw_2d`
returns `None` without raising.  For 3 or more points it clamps both
indices into `[0, n-1]`, replaces a clamped impact index `≤ 0` by `n - 1`
(so the call equals the call on the clamped indices), and returns an
assessment dict — except when both clamped indices equal `n - 1`, in which
case the tail slice reads index `n` and raises `IndexError`. -/
theorem C10_amended (pts : List (ℚ × ℚ)) (b i : ℤ) (confs : Option (List ℚ)) :
    (pts.length < 3 → _assess_lbw_2d pts b i confs = .ok none) ∧
    (3 ≤ pts.length →
      (_assess_lbw_2d pts b i confs =
        _assess_lbw_2d pts (max 0 (min ((pts.length : ℤ) - 1) b))
          (if max 0 (min ((pts.length : ℤ) - 1) i) ≤ 0 then (pts.length : ℤ) - 1
           else max 0 (min ((pts.length : ℤ) - 1) i)) confs) ∧
      ((max 0 (min ((pts.length : ℤ) - 1) b) = (pts.length : ℤ) - 1 ∧
        (if max 0 (min ((pts.length : ℤ) - 1) i) ≤ 0 then (pts.length : ℤ) - 1
         else max 0 (min ((pts.length : ℤ) - 1) i)) = (pts.length : ℤ) - 1) →
        _assess_lbw_2d pts b i confs = .error "list index out of range") ∧
      (¬(max 0 (min ((pts.length : ℤ) - 1) b) = (pts.length : ℤ) - 1 ∧
         (if max 0 (min ((pts.length : ℤ) - 1) i) ≤ 0 then (pts.length : ℤ) - 1
          else max 0 (min ((pts.length : ℤ) - 1) i)) = (pts.length : ℤ) - 1) →
        ∃ r, _assess_lbw_2d pts b i confs = .ok (some r))) := by
  refine ⟨fun h => by rw [_assess_lbw_2d, if_pos h], fun h3 => ?_⟩
  by_cases hI : max 0 (min ((pts.length : ℤ) - 1) i) ≤ 0
  · simp only [if_pos hI]
    refine ⟨?_, fun hcr => ?_, fun hcr => ?_⟩
    · simp only [_assess_lbw_2d, if_neg (not_lt.mpr h3)]
      rw [show max 0 (min ((pts.length : ℤ) - 1) (max 0 (min ((pts.length : ℤ) - 1) b)))
          = max 0 (min ((pts.length : ℤ) - 1) b) from by omega,
        show max 0 (min ((pts.length : ℤ) - 1) ((pts.length : ℤ) - 1))
          = (pts.length : ℤ) - 1 from by omega,
        if_pos hI, if_neg (show ¬((pts.length : ℤ) - 1 ≤ 0) from by omega)]
    · simp only [_assess_lbw_2d, if_neg (not_lt.mpr h3), if_pos hI]
      rw [if_pos (show pts.length ≤
        (min (max 0 (min ((pts.length : ℤ) - 1) b)).toNat ((pts.length : ℤ) - 1).toNat + 1)
          ⊔ ((pts.length : ℤ) - 1).toNat from by omega)]
    · have hb : max 0 (min ((pts.length : ℤ) - 1) b) ≠ (pts.length : ℤ) - 1 :=
        fun hEq => hcr ⟨hEq, by trivial⟩
      simp only [_assess_lbw_2d, if_neg (not_lt.mpr h3), if_pos hI]
      rw [if_neg (show ¬(pts.length ≤
        (min (max 0 (min ((pts.length : ℤ) - 1) b)).toNat ((pts.length : ℤ) - 1).toNat + 1)
          ⊔ ((pts.length : ℤ) - 1).toNat) from by omega)]
      exact ⟨_, rfl⟩
  · simp only [if_neg hI]
    refine ⟨?_, fun hcr => ?_, fun hcr => ?_⟩
    · simp only [_assess_lbw_2d, if_neg (not_lt.mpr h3)]
      rw [show max 0 (min ((pts.length : ℤ) - 1) (max 0 (min ((pts.length : ℤ) - 1) b)))
          = max 0 (min ((pts.length : ℤ) - 1) b) from by omega,
        show max 0 (min ((pts.length : ℤ) - 1) (max 0 (min ((pts.length : ℤ) - 1) i)))
          = max 0 (min ((pts.length : ℤ) - 1) i) from by omega,
        if_neg hI]
    · simp only [_assess_lbw_2d, if_neg (not_lt.mpr h3), if_neg hI]
      rw [if_pos (show pts.length ≤
        (min (max 0 (min ((pts.length : ℤ) - 1) b)).toNat
            (max 0 (min ((pts.length : ℤ) - 1) i)).toNat + 1)
          ⊔ (max 0 (min ((pts.length : ℤ) - 1) i)).toNat from by omega)]
    · simp only [_assess_lbw_2d, if_neg (not_lt.mpr h3), if_neg hI]
      rw [if_neg (show ¬(pts.length ≤
        (min (max 0 (min ((pts.length : ℤ) - 1) b)).toNat
            (max 0 (min ((pts.length : ℤ) - 1) i)).toNat + 1)
          ⊔ (max 0 (min ((pts.length : ℤ) - 1) i)).toNat) from by omega)]
      exact ⟨_, rfl⟩

/-- Witness for `C10_amended` at a 5-point trajectory with in-range indices
2 and 4: the assessor returns an assessment dict. -/
theorem C10_amended_witness :
    ∃ r, _assess_lbw_2d [(5,0),(4,0),(3,0),(2,0),(1,0)] 2 4 none = .ok (some r) := by
  have h := (C10_amended [(5,0),(4,0),(3,0),(2,0),(1,0)] 2 4 none).2 (by decide)
  refine h.2.2 ?_
  decide

/-! ## Claim C2 — tracker loop lemmas -/

/-- `pyMaxByKey` returns one of the detections it scans. -/
theorem pyMaxByKey_mem : ∀ (ds : List Detection) (d : Detection),
    pyMaxByKey d ds ∈ d :: ds := by
  intro ds
  induction ds with
  | nil => intro d; simp [pyMaxByKey]
  | cons c cs ih =>
    intro d
    have h1 : pyMaxByKey d (c :: cs) = pyMaxByKey (if d.key < c.key then c else d) cs := rfl
    rw [h1]
    rcases List.mem_cons.mp (ih (if d.key < c.key then c else d)) with h3 | h3
    · rw [h3]
      by_cases h : d.key < c.key
      · rw [if_pos h]
        exact List.mem_cons_of_mem _ (List.mem_cons_self c cs)
      · rw [if_neg h]
        exact List.mem_cons_self d _
    · exact List.mem_cons_of_mem _ (List.mem_cons_of_mem _ h3)

/-- A fold that either keeps its accumulator or adopts the scanned element
only ever returns the accumulator or a member of the list. -/
theorem foldl_pick_mem {γ : Type}
    (step : Option (Detection × γ) → Detection → Option (Detection × γ))
    (hstep : ∀ acc c, step acc c = acc ∨ ∃ z, step acc c = some (c, z)) :
    ∀ (l : List Detection) (acc : Option (Detection × γ)) (bc : Detection × γ),
      l.foldl step acc = some bc → acc = some bc ∨ bc.1 ∈ l := by
  intro l
  induction l with
  | nil => intro acc bc h; exact Or.inl h
  | cons c cs ih =>
    intro acc bc h
    rw [List.foldl_cons] at h
    rcases ih (step acc c) bc h with h1 | h1
    · rcases hstep acc c with h2 | ⟨z, h2⟩
      · rw [h2] at h1
        exact Or.inl h1
      · rw [h2] at h1
        have h3 : c = bc.1 := congrArg Prod.fst (Option.some.inj h1)
        exact Or.inr (h3 ▸ List.mem_cons_self c cs)
    · exact Or.inr (List.mem_cons_of_mem _ h1)

/-- `gateNearest` only ever returns one of the scanned detections. -/
theorem gateNearest_mem (pred : ℚ × ℚ) (radius : ℚ) (dets : List Detection)
    (bc : Detection × ℚ) (h : gateNearest pred radius dets = some bc) :
    bc.1 ∈ dets := by
  have hstep : ∀ (acc : Option (Detection × ℚ)) (cc : Detection),
      (fun acc (c : Detection) =>
        let dx := c.x - pred.1
        let dy := c.y - pred.2
        let dist2 := dx * dx + dy * dy
        if dist2 ≤ radius * radius then
          match acc with
          | some bc => if dist2 < bc.2 then some (c, dist2) else acc
          | none => some (c, dist2)
        else acc) acc cc = acc ∨
      ∃ z, (fun acc (c : Detection) =>
        let dx := c.x - pred.1
        let dy := c.y - pred.2
        let dist2 := dx * dx + dy * dy
        if dist2 ≤ radius * radius then
          match acc with
          | some bc => if dist2 < bc.2 then some (c, dist2) else acc
          | none => some (c, dist2)
        else acc) acc cc = some (cc, z) := by
    intro acc cc
    dsimp only
    by_cases hg : (cc.x - pred.1) * (cc.x - pred.1) + (cc.y - pred.2) * (cc.y - pred.2)
        ≤ radius * radius
    · rw [if_pos hg]
      rcases acc with _ | bc2
      · exact Or.inr ⟨_, rfl⟩
      · dsimp only
        by_cases hlt : (cc.x - pred.1) * (cc.x - pred.1) +
            (cc.y - pred.2) * (cc.y - pred.2) < bc2.2
        · rw [if_pos hlt]
          exact Or.inr ⟨_, rfl⟩
        · rw [if_neg hlt]
          exact Or.inl rfl
    · rw [if_neg hg]
      exact Or.inl rfl
  rcases foldl_pick_mem _ hstep dets none bc h with h2 | h2
  · exact absurd h2 (by simp)
  · exact h2

/-- `choosePoint` only ever returns one of the supplied detections. -/
theorem choosePoint_mem (mode : String) (radius : ℚ)
    (last_xy prev_xy : Option (ℚ × ℚ)) (dets : List Detection) (c : Detection)
    (h : choosePoint mode radius last_xy prev_xy dets = some c) : c ∈ dets := by
  match dets with
  | [] => exact absurd h (by simp [choosePoint])
  | d :: ds =>
    rw [choosePoint.eq_def] at h
    dsimp only at h
    by_cases hm : mode = "auto" ∧ last_xy.isNone
    · rw [if_pos hm] at h
      exact (Option.some.inj h) ▸ pyMaxByKey_mem ds d
    · rw [if_neg hm] at h
      match last_xy with
      | none => exact (Option.some.inj h) ▸ pyMaxByKey_mem ds d
      | some l =>
        rcases prev_xy with _ | pv
        · dsimp only at h
          rcases hb : gateNearest l radius (d :: ds) with _ | bc
          · rw [hb] at h
            exact (Option.some.inj h) ▸ pyMaxByKey_mem ds d
          · rw [hb] at h
            rw [← Option.some.inj h]
            exact gateNearest_mem l radius (d :: ds) bc hb
        · dsimp only at h
          rcases hb : gateNearest (l.1 + (l.1 - pv.1), l.2 + (l.2 - pv.2))
              radius (d :: ds) with _ | bc
          · rw [hb] at h
            exact (Option.some.inj h) ▸ pyMaxByKey_mem ds d
          · rw [hb] at h
            rw [← Option.some.inj h]
            exact gateNearest_mem (l.1 + (l.1 - pv.1), l.2 + (l.2 - pv.2))
              radius (d :: ds) bc hb

/-- Definitional unfolding of `trackPointsLoop` at a cons cell. -/
theorem trackPointsLoop_cons {α : Type} (detect : α → List Detection)
    (mode : String) (radius : ℚ) (frame : α) (t : ℤ) (rest : List (α × ℤ))
    (last_xy prev_xy : Option (ℚ × ℚ)) :
    trackPointsLoop detect mode radius ((frame, t) :: rest) last_xy prev_xy =
      match choosePoint mode radius last_xy prev_xy (detect frame) with
      | none =>
        match last_xy with
        | none => trackPointsLoop detect mode radius rest last_xy prev_xy
        | some l => ⟨t, l.1, l.2, 5/100⟩ :: trackPointsLoop detect mode radius rest last_xy prev_xy
      | some c =>
        ⟨t, c.x, c.y, c.conf⟩ ::
          trackPointsLoop detect mode radius rest (some (c.x, c.y)) last_xy := rfl

/-- An if-then-else over booleans takes one of its two branch values. -/
theorem ite_bool_or (b : Bool) (u v : ℚ) :
    (if b = true then u else v) = v ∨ (if b = true then u else v) = u := by
  cases b
  · exact Or.inl (if_neg (by simp))
  · exact Or.inr (if_pos rfl)

/-- A two-level boolean if-then-else takes one of its three branch values. -/
theorem ite_bool_or3 (a b : Bool) (u v w : ℚ) :
    (if a = true then u else if b = true then v else w) = u ∨
    (if a = true then u else if b = true then v else w) = v ∨
    (if a = true then u else if b = true then v else w) = w := by
  cases a <;> cases b <;> simp

/-- With a known last position, `trackPointsLoop` emits exactly one point
per frame, carrying the frame's timestamp. -/
theorem trackPointsLoop_map_tms {α : Type} (detect : α → List Detection)
    (mode : String) (radius : ℚ) :
    ∀ (l : List (α × ℤ)) (last_xy prev_xy : Option (ℚ × ℚ)),
      last_xy.isSome = true →
      (trackPointsLoop detect mode radius l last_xy prev_xy).map (·.t_ms) =
        l.map Prod.snd := by
  intro l
  induction l with
  | nil => intro last_xy prev_xy _; rfl
  | cons p rest ih =>
    intro last_xy prev_xy hsome
    rcases p with ⟨frame, t⟩
    rw [trackPointsLoop_cons]
    rcases hch : choosePoint mode radius last_xy prev_xy (detect frame) with _ | c
    · dsimp only
      rcases last_xy with _ | lxy
      · simp at hsome
      · dsimp only
        rw [List.map_cons, List.map_cons, ih _ _ (by simp)]
    · dsimp only
      rw [List.map_cons, List.map_cons, ih _ _ (by simp)]

/-- Every confidence emitted by `trackPointsLoop` is a detection confidence
or the 0.05 fallback. -/
theorem trackPointsLoop_conf {α : Type} (detect : α → List Detection)
    (mode : String) (radius : ℚ)
    (hdet : ∀ (f : α) (d : Detection), d ∈ detect f → 0 ≤ d.conf ∧ d.conf ≤ 1) :
    ∀ (l : List (α × ℤ)) (last_xy prev_xy : Option (ℚ × ℚ)) (p : TrackPointQ),
      p ∈ trackPointsLoop detect mode radius l last_xy prev_xy →
      0 ≤ p.confidence ∧ p.confidence ≤ 1 := by
  intro l
  induction l with
  | nil => intro last_xy prev_xy p hp; exact absurd hp (List.not_mem_nil p)
  | cons q rest ih =>
    intro last_xy prev_xy p hp
    rcases q with ⟨frame, t⟩
    rw [trackPointsLoop_cons] at hp
    rcases hch : choosePoint mode radius last_xy prev_xy (detect frame) with _ | c <;>
      rw [hch] at hp <;> dsimp only at hp
    · rcases last_xy with _ | lxy
      · exact ih _ _ p hp
      · dsimp only at hp
        rcases List.mem_cons.mp hp with h1 | h1
        · rw [h1]
          norm_num
        · exact ih _ _ p h1
    · rcases List.mem_cons.mp hp with h1 | h1
      · rw [h1]
        exact hdet frame c (choosePoint_mem _ _ _ _ _ _ hch)
      · exact ih _ _ p h1

/-- Unfolding `trackSeededLoop` at a cons cell: one point is emitted with
the frame's timestamp and confidence 0.35 or 0.95, and the loop continues
on the tail. -/
theorem trackSeededLoop_cons {α σ : Type} (dims : α → Nat × Nat)
    (cIn : σ → α → ℤ × ℤ × ℤ × ℤ → Option (ℚ × ℚ)) (sig : σ) (sx sy r : ℤ)
    (frame : α) (t : ℤ) (rest : List (α × ℤ)) (pt : Option ℤ)
    (kf : Option Kalman2D) (lm : Option (ℚ × ℚ)) :
    ∃ x y c kf2 lm2,
      trackSeededLoop dims cIn sig sx sy r ((frame, t) :: rest) pt kf lm =
        ⟨t, x, y, c⟩ :: trackSeededLoop dims cIn sig sx sy r rest (some t) kf2 lm2 ∧
      (c = 35/100 ∨ c = 95/100) := by
  refine ⟨_, _, _, _, _, rfl, ?_⟩
  exact ite_bool_or _ _ _

/-- `trackSeededLoop` emits exactly one point per frame, carrying the
frame's timestamp. -/
theorem trackSeededLoop_map_tms {α σ : Type} (dims : α → Nat × Nat)
    (cIn : σ → α → ℤ × ℤ × ℤ × ℤ → Option (ℚ × ℚ)) (sig : σ) (sx sy r : ℤ) :
    ∀ (l : List (α × ℤ)) (pt : Option ℤ) (kf : Option Kalman2D)
      (lm : Option (ℚ × ℚ)),
      (trackSeededLoop dims cIn sig sx sy r l pt kf lm).map (·.t_ms) =
        l.map Prod.snd := by
  intro l
  induction l with
  | nil => intro pt kf lm; rfl
  | cons p rest ih =>
    intro pt kf lm
    rcases p with ⟨frame, t⟩
    obtain ⟨x, y, c, kf2, lm2, heq, -⟩ :=
      trackSeededLoop_cons dims cIn sig sx sy r frame t rest pt kf lm
    rw [heq, List.map_cons, List.map_cons, ih]

/-- Every confidence emitted by `trackSeededLoop` is 0.35 or 0.95. -/
theorem trackSeededLoop_conf {α σ : Type} (dims : α → Nat × Nat)
    (cIn : σ → α → ℤ × ℤ × ℤ × ℤ → Option (ℚ × ℚ)) (sig : σ) (sx sy r : ℤ) :
    ∀ (l : List (α × ℤ)) (pt : Option ℤ) (kf : Option Kalman2D)
      (lm : Option (ℚ × ℚ)) (p : TrackPointQ),
      p ∈ trackSeededLoop dims cIn sig sx sy r l pt kf lm →
      p.confidence = 35/100 ∨ p.confidence = 95/100 := by
  intro l
  induction l with
  | nil => intro pt kf lm p hp; exact absurd hp (List.not_mem_nil p)
  | cons q rest ih =>
    intro pt kf lm p hp
    rcases q with ⟨frame, t⟩
    obtain ⟨x, y, c, kf2, lm2, heq, hc⟩ :=
      trackSeededLoop_cons dims cIn sig sx sy r frame t rest pt kf lm
    rw [heq] at hp
    rcases List.mem_cons.mp hp with h1 | h1
    · rw [h1]
      exact hc
    · exact ih _ _ _ p h1

/-- Unfolding `trackAutoLoop` at a cons cell: one point is emitted with the
frame's timestamp and confidence 0.75, 0.2 or 0.1, and the loop continues
on the tail. -/
theorem trackAutoLoop_cons {α : Type} (fmc : α → α → List (ℚ × ℚ × ℚ))
    (radius : ℤ) (frame : α) (t : ℤ) (rest : List (α × ℤ))
    (prev : Option (α × ℤ)) (kf : Kalman2D) (lm : Option (ℚ × ℚ)) :
    ∃ x y c kf2 lm2,
      trackAutoLoop fmc radius ((frame, t) :: rest) prev kf lm =
        ⟨t, x, y, c⟩ :: trackAutoLoop fmc radius rest (some (frame, t)) kf2 lm2 ∧
      (c = 75/100 ∨ c = 2/10 ∨ c = 1/10) := by
  refine ⟨_, _, _, _, _, rfl, ?_⟩
  exact ite_bool_or3 _ _ _ _ _

/-- `trackAutoLoop` emits exactly one point per frame, carrying the frame's
timestamp. -/
theorem trackAutoLoop_map_tms {α : Type} (fmc : α → α → List (ℚ × ℚ × ℚ))
    (radius : ℤ) :
    ∀ (l : List (α × ℤ)) (prev : Option (α × ℤ)) (kf : Kalman2D)
      (lm : Option (ℚ × ℚ)),
      (trackAutoLoop fmc radius l prev kf lm).map (·.t_ms) = l.map Prod.snd := by
  intro l
  induction l with
  | nil => intro prev kf lm; rfl
  | cons p rest ih =>
    intro prev kf lm
    rcases p with ⟨frame, t⟩
    obtain ⟨x, y, c, kf2, lm2, heq, -⟩ :=
      trackAutoLoop_cons fmc radius frame t rest prev kf lm
    rw [heq, List.map_cons, List.map_cons, ih]

/-- Every confidence emitted by `trackAutoLoop` is 0.75, 0.2 or 0.1. -/
theorem trackAutoLoop_conf {α : Type} (fmc : α → α → List (ℚ × ℚ × ℚ))
    (radius : ℤ) :
    ∀ (l : List (α × ℤ)) (prev : Option (α × ℤ)) (kf : Kalman2D)
      (lm : Option (ℚ × ℚ)) (p : TrackPointQ),
      p ∈ trackAutoLoop fmc radius l prev kf lm →
      p.confidence = 75/100 ∨ p.confidence = 2/10 ∨ p.confidence = 1/10 := by
  intro l
  induction l with
  | nil => intro prev kf lm p hp; exact absurd hp (List.not_mem_nil p)
  | cons q rest ih =>
    intro prev kf lm p hp
    rcases q with ⟨frame, t⟩
    obtain ⟨x, y, c, kf2, lm2, heq, hc⟩ :=
      trackAutoLoop_cons fmc radius frame t rest prev kf lm
    rw [heq] at hp
    rcases List.mem_cons.mp hp with h1 | h1
    · rw [h1]
      exact hc
    · exact ih _ _ _ p h1

/-- Claim C2 as stated is false: in auto mode `_track_points` executes
`continue` for a frame with no detection while no position is known yet, so
a 1-frame input with an empty detector output yields 0 track points, not
1. -/
theorem C2_counterexample :
    _track_points (fun _ : Unit => ([] : List Detection)) [()] [0] "auto" none 160 =
      .ok [] ∧
    ([] : List TrackPointQ).length ≠ [()].length := by
  refine ⟨by decide, by decide⟩

/-- Claim C2, amended: the property holds for `_track_points` in seeded
mode (given detector confidences in `[0,1]`; absent `"confidence"` keys
default to 0.5), and for `track_seeded` and — whenever it returns — for
`track_auto`: exactly one `TrackPoint` per input frame, matching
timestamps, confidences within `[0,1]`, detection gaps degrading the
confidence instead of truncating the output.  `_track_points` in auto
mode, however, drops the frames seen before its first detection. -/
theorem C2_amended :
    (∀ (α : Type) (detect : α → List Detection) (frames : List α) (times : List ℤ)
        (s : ℚ × ℚ) (radius : ℚ),
      frames.length = times.length →
      (∀ (f : α) (d : Detection), d ∈ detect f → 0 ≤ d.conf ∧ d.conf ≤ 1) →
      ∃ out, _track_points detect frames times "seeded" (some s) radius = .ok out ∧
        out.map (·.t_ms) = times ∧
        ∀ p ∈ out, 0 ≤ p.confidence ∧ p.confidence ≤ 1) ∧
    (∀ (α σ : Type) (dims : α → Nat × Nat) (sigOf : α → ℤ → ℤ → σ)
        (cIn : σ → α → ℤ × ℤ × ℤ × ℤ → Option (ℚ × ℚ))
        (frames : List α) (times : List ℤ) (seedx seedy : ℚ) (radius : ℤ),
      frames.length = times.length →
      ∃ out, track_seeded dims sigOf cIn frames times seedx seedy radius = .ok out ∧
        out.map (·.t_ms) = times ∧
        ∀ p ∈ out, 0 ≤ p.confidence ∧ p.confidence ≤ 1) ∧
    (∀ (α : Type) (fmc : α → α → List (ℚ × ℚ × ℚ)) (frames : List α)
        (times : List ℤ) (radius : ℤ) (out : List TrackPointQ),
      frames.length = times.length →
      track_auto fmc frames times radius = .ok out →
      out.map (·.t_ms) = times ∧
        ∀ p ∈ out, 0 ≤ p.confidence ∧ p.confidence ≤ 1) := by
  refine ⟨?_, ?_, ?_⟩
  · intro α detect frames times s radius hlen hdet
    rw [_track_points, if_neg (by omega), if_neg (by simp)]
    rw [if_pos rfl]
    refine ⟨_, rfl, ?_, ?_⟩
    · rw [trackPointsLoop_map_tms detect "seeded" radius (frames.zip times)
        (some s) none rfl]
      exact List.map_snd_zip frames times (by omega)
    · intro p hp
      exact trackPointsLoop_conf detect "seeded" radius hdet
        (frames.zip times) (some s) none p hp
  · intro α σ dims sigOf cIn frames times seedx seedy radius hlen
    match frames, hlen with
    | [], hlen =>
      have htimes : times = [] := List.eq_nil_of_length_eq_zero (by simpa using hlen.symm)
      subst htimes
      exact ⟨[], rfl, rfl, fun p hp => absurd hp (List.not_mem_nil p)⟩
    | f0 :: fr, hlen =>
      rw [track_seeded.eq_def, if_neg (show ¬((f0 :: fr).length ≠ times.length) by omega)]
      dsimp only
      refine ⟨_, rfl, ?_, ?_⟩
      · rw [trackSeededLoop_map_tms]
        exact List.map_snd_zip (f0 :: fr) times (by omega)
      · intro p hp
        rcases trackSeededLoop_conf dims cIn _ _ _ radius ((f0 :: fr).zip times)
            none none none p hp with h | h <;> rw [h] <;> norm_num
  · intro α fmc frames times radius out hlen hok
    rw [track_auto, if_neg (by omega)] at hok
    by_cases hemp : frames.isEmpty
    · rw [if_pos hemp] at hok
      have hout : out = [] := (Except.ok.inj hok).symm
      have htimes : times = [] := by
        cases frames with
        | nil => exact List.eq_nil_of_length_eq_zero (by simpa using hlen.symm)
        | cons a l => simp at hemp
      rw [hout, htimes]
      exact ⟨rfl, by intro p hp; exact absurd hp (List.not_mem_nil p)⟩
    · rw [if_neg hemp] at hok
      by_cases h2 : frames.length < 2
      · rw [if_pos h2] at hok
        exact Except.noConfusion hok
      · rw [if_neg h2] at hok
        rcases hini : (pyRange 1 (min 6 frames.length)).findSome? (fun i =>
            match frames[i-1]?, frames[i]? with
            | some fp, some fc =>
              match fmc fp fc with
              | [] => none
              | c :: _ => some (c.1, c.2.1)
            | _, _ => none) with _ | ini
        · rw [hini] at hok
          exact Except.noConfusion hok
        · rw [hini] at hok
          have hout := (Except.ok.inj hok).symm
          rw [hout]
          constructor
          · rw [trackAutoLoop_map_tms]
            exact List.map_snd_zip frames times (by omega)
          · intro p hp
            rcases trackAutoLoop_conf fmc radius (frames.zip times) none
                (Kalman2D.init ini.1 ini.2) (some ini) p hp with h | h | h <;>
              rw [h] <;> norm_num

/-- Witness for `C2_amended`, instantiating all three clauses at concrete
inputs: a seeded `_track_points` run over one frame with no detections, a
`track_seeded` run over one frame, and a successful two-frame `track_auto`
run with one motion candidate. -/
theorem C2_amended_witness :
    (∃ out, _track_points (fun _ : Unit => ([] : List Detection)) [()] [0] "seeded"
        (some (0, 0)) 160 = .ok out ∧
      out.map (·.t_ms) = [0] ∧ ∀ p ∈ out, 0 ≤ p.confidence ∧ p.confidence ≤ 1) ∧
    (∃ out, track_seeded (fun _ : Unit => (10, 10)) (fun _ _ _ => ())
        (fun _ _ _ => none) [()] [0] 0 0 36 = .ok out ∧
      out.map (·.t_ms) = [0] ∧ ∀ p ∈ out, 0 ≤ p.confidence ∧ p.confidence ≤ 1) ∧
    (∃ out, track_auto (fun _ _ : Unit => [((0:ℚ), (0:ℚ), (10:ℚ))]) [(), ()]
        [0, 33] 36 = .ok out ∧
      out.map (·.t_ms) = [0, 33] ∧ ∀ p ∈ out, 0 ≤ p.confidence ∧ p.confidence ≤ 1) := by
  refine ⟨?_, ?_, ?_⟩
  · exact C2_amended.1 Unit (fun _ => []) [()] [0] (0, 0) 160 rfl
      (fun f d hd => absurd hd (List.not_mem_nil d))
  · exact C2_amended.2.1 Unit Unit (fun _ => (10, 10)) (fun _ _ _ => ())
      (fun _ _ _ => none) [()] [0] 0 0 36 rfl
  · exact ⟨_, rfl, C2_amended.2.2 Unit (fun _ _ => [(0, 0, 10)]) [(), ()] [0, 33] 36 _
      rfl rfl⟩

end PocketDRS
